import Mathlib

/-!
# Verification of `thermostat_nw/core.py`

A shallow embedding in Lean 4 of the per-thermostat analytical engine of the
`epathermostat` (northwest variant) repository, together with theorems that
settle the frozen claims about it.

Numerics.  The Python code computes with IEEE floats under
`np.seterr(divide="ignore", invalid="ignore")`, so quiet NaNs and infinities
flow through the pipeline.  We model a float value as `RVal`: an exact
rational, `nan`, `inf`, or `ninf`.  Rounding is immaterial to every claim
(each one is about NaN/∞ propagation, control flow, or exact ratios), so the
finite arm carries an exact `ℚ`.  Operations mirror IEEE-754 semantics:
NaN propagates, `0/0 = NaN`, `q/0 = ±∞` for `q ≠ 0`, `∞ - ∞ = NaN`,
`0 * ∞ = NaN`, and every comparison involving NaN is false.

Transcendental primitives (`x ** 0.5`, `scipy.special.erf`) and the
Levenberg–Marquardt solver (`scipy.optimize.leastsq` / `least_squares`)
cannot be shallowly embedded as exact rational functions; following the usual
technique, the embedded functions are parameterised over them.  `leastsq` is
modelled by an external answer together with its documented failure mode
(`TypeError` when the residual vector is shorter than the parameter vector,
i.e. empty here), which is precisely the behaviour the code relies on.
-/

/-- An IEEE-style scalar: exact rational, NaN, `+∞`, or `-∞`.
Models the `numpy`/`pandas` float values flowing through `core.py`. -/
inductive RVal where
  | nan : RVal
  | inf : RVal
  | ninf : RVal
  | fin : ℚ → RVal
  deriving DecidableEq, Repr

namespace RVal

/-- IEEE negation. -/
def neg : RVal → RVal
  | nan => nan
  | inf => ninf
  | ninf => inf
  | fin q => fin (-q)

/-- IEEE addition: NaN propagates, `∞ + (-∞) = NaN`. -/
def add : RVal → RVal → RVal
  | nan, _ => nan
  | _, nan => nan
  | inf, ninf => nan
  | inf, _ => inf
  | ninf, inf => nan
  | ninf, _ => ninf
  | fin _, inf => inf
  | fin _, ninf => ninf
  | fin a, fin b => fin (a + b)

/-- IEEE subtraction. -/
def sub (a b : RVal) : RVal := add a (neg b)

/-- IEEE multiplication: NaN propagates, `0 * ±∞ = NaN`. -/
def mul : RVal → RVal → RVal
  | nan, _ => nan
  | _, nan => nan
  | inf, inf => inf
  | inf, ninf => ninf
  | inf, fin b => if b = 0 then nan else if 0 < b then inf else ninf
  | ninf, inf => ninf
  | ninf, ninf => inf
  | ninf, fin b => if b = 0 then nan else if 0 < b then ninf else inf
  | fin a, inf => if a = 0 then nan else if 0 < a then inf else ninf
  | fin a, ninf => if a = 0 then nan else if 0 < a then ninf else inf
  | fin a, fin b => fin (a * b)

/-- IEEE division with `np.seterr(divide="ignore", invalid="ignore")`:
`0/0 = NaN`, `q/0 = ±∞`, `q/±∞ = 0`, `±∞/±∞ = NaN`. -/
def div : RVal → RVal → RVal
  | nan, _ => nan
  | _, nan => nan
  | inf, inf => nan
  | inf, ninf => nan
  | ninf, inf => nan
  | ninf, ninf => nan
  | inf, fin b => if 0 ≤ b then inf else ninf
  | ninf, fin b => if 0 ≤ b then ninf else inf
  | fin _, inf => fin 0
  | fin _, ninf => fin 0
  | fin a, fin b =>
      if b = 0 then (if a = 0 then nan else if 0 < a then inf else ninf)
      else fin (a / b)

/-- IEEE `<` as computed by numpy/pandas: any comparison with NaN is false. -/
def lt : RVal → RVal → Bool
  | nan, _ => false
  | _, nan => false
  | inf, _ => false
  | ninf, inf => true
  | ninf, ninf => false
  | ninf, fin _ => true
  | fin _, inf => true
  | fin _, ninf => false
  | fin a, fin b => decide (a < b)

/-- IEEE `≤`: any comparison with NaN is false. -/
def le : RVal → RVal → Bool
  | nan, _ => false
  | _, nan => false
  | inf, inf => true
  | inf, _ => false
  | ninf, _ => true
  | fin _, inf => true
  | fin _, ninf => false
  | fin a, fin b => decide (a ≤ b)

/-- `np.maximum(x, 0)`: NaN propagates (unlike `np.fmax`). -/
def max0 : RVal → RVal
  | nan => nan
  | inf => inf
  | ninf => fin 0
  | fin q => fin (max q 0)

/-- `np.absolute`. -/
def abs : RVal → RVal
  | nan => nan
  | inf => inf
  | ninf => inf
  | fin q => fin |q|

/-- `x ** 0.5` on floats, parameterised by `sqrtQ`, the (irrational-valued)
square root restricted to the positive finite arm.  Negative finite inputs
give NaN, as numpy does under suppressed warnings. -/
def rsqrt (sqrtQ : ℚ → ℚ) : RVal → RVal
  | nan => nan
  | inf => inf
  | ninf => nan
  | fin q => if q < 0 then nan else fin (sqrtQ q)

/-- True exactly on the NaN arm (`pd.isnull` for scalars). -/
def isNan : RVal → Bool
  | nan => true
  | _ => false

end RVal

open RVal

/-- Plain left fold of IEEE addition, starting from `0`.  Models `np.sum`
(no NaN skipping) on an array of floats. -/
def npsum (xs : List RVal) : RVal := xs.foldr RVal.add (fin 0)

/-- `pandas.Series.sum()` with its default `skipna=True`: NaNs are dropped
and an empty (or all-NaN) series sums to `0`. -/
def psum (xs : List RVal) : RVal := npsum (xs.filter (fun x => ¬ x.isNan))

/-- `pandas.Series.sum(skipna=False)`, used by the daily `resample("D")`
aggregation in `Thermostat.__init__`: any NaN makes the sum NaN. -/
def strictSum (xs : List RVal) : RVal :=
  if xs.any (fun x => x.isNan) then nan else npsum xs

/-- `pandas.Series.mean()` / `np.nanmean`: mean of the non-NaN entries, NaN
when there are none. -/
def nanmean (xs : List RVal) : RVal :=
  if (xs.filter (fun x => ¬ x.isNan)).isEmpty then nan
  else RVal.div (npsum (xs.filter (fun x => ¬ x.isNan)))
    (fin (xs.filter (fun x => ¬ x.isNan)).length)

/-- `core.py::avoided` (line 96): `baseline - observed`. -/
def avoided (baseline observed : RVal) : RVal := RVal.sub baseline observed

/-- `core.py::percent_savings` (lines 100-102):
`np.divide(avoided.mean(), baseline.mean()) * 100.0`.  The `thermostat_id`
argument is accepted and unused, as in the source. -/
def percent_savings (avoided baseline : List RVal) (thermostat_id : String) : RVal :=
  RVal.mul (RVal.div (nanmean avoided) (nanmean baseline)) (fin 100)

/-! Helper lemmas about the aggregates. -/

theorem npsum_map_fin (l : List ℚ) : npsum (l.map fin) = fin l.sum := by
  induction l with
  | nil => rfl
  | cons a t ih =>
      show RVal.add (fin a) (npsum (t.map fin)) = fin (a :: t).sum
      rw [ih, List.sum_cons]
      rfl

theorem filter_notnan_map_fin (l : List ℚ) :
    (l.map fin).filter (fun x => ¬ x.isNan) = l.map fin := by
  induction l with
  | nil => rfl
  | cons a t ih =>
      show List.filter _ (fin a :: t.map fin) = fin a :: t.map fin
      rw [List.filter_cons_of_pos (by rfl), ih]

theorem nanmean_map_fin (l : List ℚ) (hne : l ≠ []) :
    nanmean (l.map fin) = fin (l.sum / l.length) := by
  unfold nanmean
  rw [filter_notnan_map_fin, npsum_map_fin]
  have hnil : ((l.map fin).isEmpty) = false := by
    cases l with
    | nil => exact absurd rfl hne
    | cons a t => rfl
  rw [hnil]
  simp only [Bool.false_eq_true, if_false, List.length_map]
  have hlz : ((l.length : ℚ)) ≠ 0 := by
    cases l with
    | nil => exact absurd rfl hne
    | cons a t =>
        have : (0:ℚ) < ((a :: t).length : ℚ) := by
          exact_mod_cast Nat.succ_pos t.length
        exact ne_of_gt this
  simp only [RVal.div, if_neg hlz]

/-- C1: `percent_savings` is 100 times the ratio of the means (not a mean of
per-day ratios): on finite nonempty series with nonzero baseline mean it
equals `100 * (mean avoided) / (mean baseline)` exactly, and on baseline
runtimes `[100, 200]` with avoided runtimes `[10, 20]` it is exactly `10`. -/
theorem percent_savings_ratio_of_means
    (a b : List ℚ) (tid : String) (ha : a ≠ []) (hb : b ≠ [])
    (hbm : b.sum / b.length ≠ 0) :
    percent_savings (a.map fin) (b.map fin) tid
      = fin (100 * ((a.sum / a.length) / (b.sum / b.length)))
    ∧ percent_savings [fin 10, fin 20] [fin 100, fin 200] tid = fin 10 := by
  constructor
  · unfold percent_savings
    rw [nanmean_map_fin a ha, nanmean_map_fin b hb]
    simp only [RVal.div, if_neg hbm, RVal.mul]
    congr 1
    ring
  · exact (by with_unfolding_all decide :
      RVal.mul (RVal.div (nanmean [fin 10, fin 20]) (nanmean [fin 100, fin 200]))
        (fin 100) = fin 10)

/-- Closed witness for `percent_savings_ratio_of_means` at the spec's literal
example. -/
theorem percent_savings_ratio_of_means_witness :
    percent_savings ([(10 : ℚ), 20].map fin) ([(100 : ℚ), 200].map fin) "t"
      = fin (100 * ((([(10 : ℚ), 20].sum / ([(10 : ℚ), 20] : List ℚ).length))
          / (([(100 : ℚ), 200].sum / ([(100 : ℚ), 200] : List ℚ).length)))) :=
  (percent_savings_ratio_of_means [10, 20] [100, 200] "t"
    (by decide) (by decide) (by norm_num)).1

/-! ## Calendar dates

`core.py` manipulates `np.datetime64` day stamps (window anchoring in the
core-day-set detectors) and pandas `DatetimeIndex` attributes
(`is_leap_year`, `dayofyear`, `hour` in the hourly-baseline join).  We model
a calendar date as year/month/day; `np.datetime64` comparison is
lexicographic on valid dates. -/

structure Date where
  year : ℤ
  month : ℕ
  day : ℕ
  deriving DecidableEq, Repr

namespace Date

/-- Strict `<` on day stamps (lexicographic, as `np.datetime64` compares). -/
def ltb (a b : Date) : Bool :=
  decide (a.year < b.year) ||
    (decide (a.year = b.year) &&
      (decide (a.month < b.month) ||
        (decide (a.month = b.month) && decide (a.day < b.day))))

/-- `≤` on day stamps. -/
def leb (a b : Date) : Bool := ltb a b || decide (a = b)

/-- Python `max` over `np.datetime64` (line 528 / 639). -/
def maxD (a b : Date) : Date := if ltb a b then b else a

/-- Python `min` over `np.datetime64` (line 529 / 640). -/
def minD (a b : Date) : Date := if ltb b a then b else a

end Date

/-- Proleptic-Gregorian leap year, as `pandas.DatetimeIndex.is_leap_year`. -/
def isLeapYear (y : ℤ) : Bool :=
  decide (y % 4 = 0) && (decide (y % 100 ≠ 0) || decide (y % 400 = 0))

/-- Number of days of month `m` (1-based). -/
def monthLength (leap : Bool) (m : ℕ) : ℕ :=
  match m with
  | 1 => 31
  | 2 => if leap then 29 else 28
  | 3 => 31
  | 4 => 30
  | 5 => 31
  | 6 => 30
  | 7 => 31
  | 8 => 31
  | 9 => 30
  | 10 => 31
  | 11 => 30
  | 12 => 31
  | _ => 0

/-- Days in the year strictly before month `m` (1-based). -/
def daysBeforeMonth (leap : Bool) (m : ℕ) : ℕ :=
  ((List.range (m - 1)).map (fun i => monthLength leap (i + 1))).sum

/-- `pandas.DatetimeIndex.dayofyear`: 1-based ordinal day of the year. -/
def dayOfYear (d : Date) : ℕ :=
  daysBeforeMonth (isLeapYear d.year) d.month + d.day

/-- A structurally valid calendar date. -/
def ValidDate (d : Date) : Prop :=
  1 ≤ d.month ∧ d.month ≤ 12 ∧ 1 ≤ d.day ∧
    d.day ≤ monthLength (isLeapYear d.year) d.month

/-- The hour-of-year index computed by `get_baseline_hourly_cooling_demand`
(lines 2331-2334) and `get_baseline_hourly_heating_demand` (lines 2376-2379):
`leap_adjustment = is_leap_year & (dayofyear >= 59)`;
`hour_of_year = 1 + hour + (dayofyear - 1 - leap_adjustment) * 24`. -/
def hour_of_year (d : Date) (hour : ℕ) : ℤ :=
  let leap_adjustment : ℤ :=
    if isLeapYear d.year && decide (59 ≤ dayOfYear d) then 1 else 0
  1 + hour + ((dayOfYear d : ℤ) - 1 - leap_adjustment) * 24

/-- The hour-of-year index that calendar coordinates `(month, day, hour)`
receive in a non-leap year: the position of that hour in the 8760-row
baseline table. -/
def nonLeapHourOfYear (month day hour : ℕ) : ℤ :=
  1 + hour + ((daysBeforeMonth false month + day : ℤ) - 1) * 24

/-! ## The thermostat container and the core-day-set detector

The `Thermostat` docstring requires all hourly series to share one identical
gap-free hourly `DatetimeIndex`, and `__init__` caches the strict
(`skipna=False`) daily resampled sums.  We model the container as a list of
day records, each carrying the day's date and the 24 hourly samples of each
series restricted to that day; the daily sums and the per-day
missing-data counts of the detector are computed from these. -/

structure DayRecord where
  date : Date
  tempIn : List RVal
  tempOut : List RVal
  coolRt : List RVal
  heatRt : List RVal
  deriving DecidableEq, Repr

structure Thermo where
  hasHeating : Bool
  hasCooling : Bool
  days : List DayRecord
  deriving DecidableEq, Repr

/-- The Python exceptions that the embedded operations can raise. -/
inductive PErr where
  | indexError : PErr
  | valueError : PErr
  | notImplementedError : PErr
  deriving DecidableEq, Repr

/-- The `method` argument of the detectors. -/
inductive CoreDayMethod where
  | entireDataset : CoreDayMethod
  | yearMidToMid : CoreDayMethod
  | yearEndToEnd : CoreDayMethod
  deriving DecidableEq, Repr

/-- A detected core day set (the `CoreDaySet` namedtuple, line 35). -/
structure CoreDaySetM where
  name : String
  daily : List Bool
  hourly : List Bool
  startDate : Date
  endDate : Date
  deriving DecidableEq, Repr

/-- `core.py::Thermostat._get_hourly_boolean` (lines 677-685):
`np.repeat(daily.values, 24)` broadcast of the daily mask. -/
def _get_hourly_boolean : List Bool → List Bool
  | [] => []
  | b :: t => List.replicate 24 b ++ _get_hourly_boolean t

/-- The daily `resample("D").agg(pd.Series.sum, skipna=False)` sums of the
hourly heating runtime (`heat_runtime_daily`, lines 213-218). -/
def heat_runtime_daily (t : Thermo) : List RVal :=
  t.days.map (fun d => strictSum d.heatRt)

/-- `cool_runtime_daily` (lines 207-212). -/
def cool_runtime_daily (t : Thermo) : List RVal :=
  t.days.map (fun d => strictSum d.coolRt)

/-- Number of missing (NaN) hourly samples in one day of a series:
`x.isnull().sum()` within one `groupby(index.date)` group. -/
def missingCount (xs : List RVal) : ℕ :=
  (xs.filter (fun x => x.isNan)).length

/-- The per-day `meets_thresholds` mask of `get_core_heating_days`
(lines 490-510): daily heating runtime at least `min_minutes_heating`,
daily cooling runtime at most `max_minutes_cooling` (vacuous without cooling
capability), and at most 2 missing hourly readings of each temperature
series.  NaN daily sums fail the runtime comparisons, as in pandas. -/
def heatingMeetsThresholds (t : Thermo) (min_minutes_heating max_minutes_cooling : ℚ) :
    List Bool :=
  t.days.map (fun d =>
    RVal.le (fin min_minutes_heating) (strictSum d.heatRt) &&
    (if t.hasCooling then RVal.le (strictSum d.coolRt) (fin max_minutes_cooling) else true) &&
    decide (missingCount d.tempIn ≤ 2) && decide (missingCount d.tempOut ≤ 2))

/-- The per-day `meets_thresholds` mask of `get_core_cooling_days`
(lines 609-627). -/
def coolingMeetsThresholds (t : Thermo) (min_minutes_cooling max_minutes_heating : ℚ) :
    List Bool :=
  t.days.map (fun d =>
    (if t.hasHeating then RVal.le (strictSum d.heatRt) (fin max_minutes_heating) else true) &&
    RVal.le (fin min_minutes_cooling) (strictSum d.coolRt) &&
    decide (missingCount d.tempIn ≤ 2) && decide (missingCount d.tempOut ≤ 2))

/-- `core.py::Thermostat._get_range_boolean` (lines 672-675) applied to one
day stamp: `start_date <= d < end_date`. -/
def _get_range_boolean (d startDate endDate : Date) : Bool :=
  Date.leb startDate d && Date.ltb d endDate

/-- `core.py::Thermostat.get_core_heating_days` (lines 447-561).
Raises `NotImplementedError` for an unknown method (line 485),
`ValueError` from `_protect_heating` without heating capability (line 488),
and `IndexError` reading `heat_runtime_daily.index[0]` on a zero-length
daily series (line 512). -/
def get_core_heating_days (t : Thermo) (method : CoreDayMethod)
    (min_minutes_heating max_minutes_cooling : ℚ) :
    Except PErr (List CoreDaySetM) :=
  if method = CoreDayMethod.yearEndToEnd then Except.error PErr.notImplementedError
  else if ¬ t.hasHeating then Except.error PErr.valueError
  else
    let meets := heatingMeetsThresholds t min_minutes_heating max_minutes_cooling
    match t.days with
    | [] => Except.error PErr.indexError
    | d0 :: rest =>
      let dataStartDate := d0.date
      let dataEndDate := ((d0 :: rest).getLastD d0).date
      match method with
      | CoreDayMethod.yearMidToMid =>
          let startYear := dataStartDate.year - 1
          let endYear := dataEndDate.year + 1
          let years := (List.range (endYear - startYear).toNat).map
            (fun i => startYear + (i : ℤ))
          Except.ok (years.filterMap (fun y =>
            let startDate := Date.maxD ⟨y, 7, 1⟩ dataStartDate
            let endDate := Date.minD ⟨y + 1, 7, 1⟩ dataEndDate
            let inclusionDaily := List.zipWith (fun a b => a && b)
              (t.days.map (fun d => _get_range_boolean d.date startDate endDate)) meets
            if inclusionDaily.any id then
              some ⟨"heating_" ++ toString y ++ "-" ++ toString (y + 1),
                inclusionDaily, _get_hourly_boolean inclusionDaily, startDate, endDate⟩
            else none))
      | _ =>
          Except.ok [⟨"heating_ALL", meets, _get_hourly_boolean meets,
            dataStartDate, dataEndDate⟩]

/-- `core.py::Thermostat.get_core_cooling_days` (lines 563-670).
Same failure modes as the heating detector; note the `IndexError` access of
`cool_runtime_daily.index[0]` (line 606) happens before the threshold
computation. -/
def get_core_cooling_days (t : Thermo) (method : CoreDayMethod)
    (min_minutes_cooling max_minutes_heating : ℚ) :
    Except PErr (List CoreDaySetM) :=
  if method = CoreDayMethod.yearMidToMid then Except.error PErr.notImplementedError
  else if ¬ t.hasCooling then Except.error PErr.valueError
  else
    match t.days with
    | [] => Except.error PErr.indexError
    | d0 :: rest =>
      let dataStartDate := d0.date
      let dataEndDate := ((d0 :: rest).getLastD d0).date
      let meets := coolingMeetsThresholds t min_minutes_cooling max_minutes_heating
      match method with
      | CoreDayMethod.yearEndToEnd =>
          let startYear := dataStartDate.year
          let endYear := dataEndDate.year
          let years := (List.range (endYear - startYear + 1).toNat).map
            (fun i => startYear + (i : ℤ))
          Except.ok (years.filterMap (fun y =>
            let startDate := Date.maxD ⟨y, 1, 1⟩ dataStartDate
            let endDate := Date.minD ⟨y + 1, 1, 1⟩ dataEndDate
            let inclusionDaily := List.zipWith (fun a b => a && b)
              (t.days.map (fun d => _get_range_boolean d.date startDate endDate)) meets
            if inclusionDaily.any id then
              some ⟨"cooling_" ++ toString y,
                inclusionDaily, _get_hourly_boolean inclusionDaily, startDate, endDate⟩
            else none))
      | _ =>
          Except.ok [⟨"cooling_ALL", meets, _get_hourly_boolean meets,
            dataStartDate, dataEndDate⟩]

/-! Structural lemmas about the hourly broadcast and the produced sets. -/

theorem hourly_boolean_length (l : List Bool) :
    (_get_hourly_boolean l).length = 24 * l.length := by
  induction l with
  | nil => rfl
  | cons b t ih =>
      show (List.replicate 24 b ++ _get_hourly_boolean t).length = 24 * (t.length + 1)
      rw [List.length_append, List.length_replicate, ih]
      ring

theorem hourly_boolean_getElem (l : List Bool) (i h : ℕ)
    (hi : i < l.length) (hh : h < 24) (hb : 24 * i + h < (_get_hourly_boolean l).length) :
    (_get_hourly_boolean l)[24 * i + h] = l[i] := by
  induction l generalizing i with
  | nil => exact absurd hi (Nat.not_lt_zero i)
  | cons b t ih =>
      cases i with
      | zero =>
          have heq : _get_hourly_boolean (b :: t)
              = List.replicate 24 b ++ _get_hourly_boolean t := rfl
          rw [List.getElem_of_eq heq hb]
          have hlt : 24 * 0 + h < (List.replicate 24 b).length := by
            simpa using hh
          rw [List.getElem_append_left hlt, List.getElem_replicate,
            List.getElem_cons_zero]
      | succ j =>
          have hj : j < t.length := Nat.lt_of_succ_lt_succ hi
          have heq : _get_hourly_boolean (b :: t)
              = List.replicate 24 b ++ _get_hourly_boolean t := rfl
          rw [List.getElem_of_eq heq hb]
          have hge : (List.replicate 24 b).length ≤ 24 * (j + 1) + h := by
            simp only [List.length_replicate]
            omega
          rw [List.getElem_append_right hge]
          have hb' : 24 * j + h < (_get_hourly_boolean t).length := by
            rw [hourly_boolean_length]
            omega
          have hidx : 24 * (j + 1) + h - (List.replicate 24 b).length = 24 * j + h := by
            simp only [List.length_replicate]
            omega
          simp only [hidx, List.getElem_cons_succ]
          exact ih j hj hb'

/-- Every core day set emitted by `get_core_heating_days` has its `hourly`
mask generated by `_get_hourly_boolean` from its `daily` mask, a `daily` mask
aligned with the record's days, and a `daily` mask equal to the thresholds
mask — intersected with the window range mask for `year_mid_to_mid`. -/
theorem get_core_heating_days_sets (t : Thermo) (method : CoreDayMethod)
    (minm maxm : ℚ) (l : List CoreDaySetM) (s : CoreDaySetM)
    (hok : get_core_heating_days t method minm maxm = Except.ok l) (hs : s ∈ l) :
    s.hourly = _get_hourly_boolean s.daily ∧
    s.daily.length = t.days.length ∧
    (method = CoreDayMethod.yearMidToMid →
      s.daily = List.zipWith (fun a b => a && b)
        (t.days.map (fun d => _get_range_boolean d.date s.startDate s.endDate))
        (heatingMeetsThresholds t minm maxm)) ∧
    (method ≠ CoreDayMethod.yearMidToMid →
      s.daily = heatingMeetsThresholds t minm maxm) := by
  simp only [get_core_heating_days] at hok
  split at hok
  · exact absurd hok (by simp)
  split at hok
  · exact absurd hok (by simp)
  split at hok
  · exact absurd hok (by simp)
  case _ d0 rest heq =>
  split at hok
  case _ hmeth =>
    -- year_mid_to_mid
    injection hok with hok
    subst hok
    rw [List.mem_filterMap] at hs
    obtain ⟨y, -, hfy⟩ := hs
    split at hfy
    case isTrue hany =>
      injection hfy with hfy
      subst hfy
      refine ⟨rfl, ?_, fun _ => rfl, fun hne => absurd rfl hne⟩
      simp [heatingMeetsThresholds, heq]
    case isFalse => exact absurd hfy (by simp)
  case _ hmeth =>
    -- entire_dataset
    injection hok with hok
    subst hok
    rcases List.mem_singleton.mp hs with rfl
    refine ⟨rfl, ?_, fun hm => absurd hm hmeth, fun _ => rfl⟩
    simp [heatingMeetsThresholds]

/-- Counterpart of `get_core_heating_days_sets` for
`get_core_cooling_days`. -/
theorem get_core_cooling_days_sets (t : Thermo) (method : CoreDayMethod)
    (minm maxm : ℚ) (l : List CoreDaySetM) (s : CoreDaySetM)
    (hok : get_core_cooling_days t method minm maxm = Except.ok l) (hs : s ∈ l) :
    s.hourly = _get_hourly_boolean s.daily ∧
    s.daily.length = t.days.length ∧
    (method = CoreDayMethod.yearEndToEnd →
      s.daily = List.zipWith (fun a b => a && b)
        (t.days.map (fun d => _get_range_boolean d.date s.startDate s.endDate))
        (coolingMeetsThresholds t minm maxm)) ∧
    (method ≠ CoreDayMethod.yearEndToEnd →
      s.daily = coolingMeetsThresholds t minm maxm) := by
  simp only [get_core_cooling_days] at hok
  split at hok
  · exact absurd hok (by simp)
  split at hok
  · exact absurd hok (by simp)
  split at hok
  · exact absurd hok (by simp)
  case _ d0 rest heq =>
  split at hok
  case _ hmeth =>
    injection hok with hok
    subst hok
    rw [List.mem_filterMap] at hs
    obtain ⟨y, -, hfy⟩ := hs
    split at hfy
    case isTrue hany =>
      injection hfy with hfy
      subst hfy
      refine ⟨rfl, ?_, fun _ => rfl, fun hne => absurd rfl hne⟩
      simp [coolingMeetsThresholds, heq]
    case isFalse => exact absurd hfy (by simp)
  case _ hmeth =>
    injection hok with hok
    subst hok
    rcases List.mem_singleton.mp hs with rfl
    refine ⟨rfl, ?_, fun hm => absurd hm hmeth, fun _ => rfl⟩
    simp [coolingMeetsThresholds]

/-- A concrete one-day thermostat record used to instantiate the detector
theorems: 45 minutes of heating runtime per day, no cooling runtime, and
complete temperature data. -/
def sampleThermo : Thermo :=
  ⟨true, true,
    [⟨⟨2011, 1, 1⟩, List.replicate 24 (fin 70), List.replicate 24 (fin 30),
      List.replicate 24 (fin 0), List.replicate 24 (fin 2)⟩]⟩

/-- The core heating day set that `get_core_heating_days` detects on
`sampleThermo` with the `entire_dataset` method. -/
def sampleHeatingSet : CoreDaySetM :=
  ⟨"heating_ALL", [true], List.replicate 24 true ++ [], ⟨2011, 1, 1⟩, ⟨2011, 1, 1⟩⟩

/-- C4: every `CoreDaySet` produced by `get_core_heating_days` or
`get_core_cooling_days` has an hourly mask of length exactly `24 ×` the
daily mask length, and every hour of a day whose daily-mask value is `True`
is itself `True`. -/
theorem core_day_set_hourly_is_daily_broadcast :
    (∀ (t : Thermo) (method : CoreDayMethod) (a b : ℚ) (l : List CoreDaySetM)
        (s : CoreDaySetM),
        get_core_heating_days t method a b = Except.ok l → s ∈ l →
        s.hourly.length = 24 * s.daily.length ∧
        ∀ (i h : ℕ) (hi : i < s.daily.length) (hh : h < 24)
          (hb : 24 * i + h < s.hourly.length),
          s.daily[i] = true → s.hourly[24 * i + h] = true) ∧
    (∀ (t : Thermo) (method : CoreDayMethod) (a b : ℚ) (l : List CoreDaySetM)
        (s : CoreDaySetM),
        get_core_cooling_days t method a b = Except.ok l → s ∈ l →
        s.hourly.length = 24 * s.daily.length ∧
        ∀ (i h : ℕ) (hi : i < s.daily.length) (hh : h < 24)
          (hb : 24 * i + h < s.hourly.length),
          s.daily[i] = true → s.hourly[24 * i + h] = true) := by
  constructor
  · intro t method a b l s hok hs
    obtain ⟨hH, -, -, -⟩ := get_core_heating_days_sets t method a b l s hok hs
    refine ⟨by rw [hH, hourly_boolean_length], ?_⟩
    intro i h hi hh hb hdaily
    have hb' : 24 * i + h < (_get_hourly_boolean s.daily).length := hH ▸ hb
    rw [List.getElem_of_eq hH hb, hourly_boolean_getElem s.daily i h hi hh hb']
    exact hdaily
  · intro t method a b l s hok hs
    obtain ⟨hH, -, -, -⟩ := get_core_cooling_days_sets t method a b l s hok hs
    refine ⟨by rw [hH, hourly_boolean_length], ?_⟩
    intro i h hi hh hb hdaily
    have hb' : 24 * i + h < (_get_hourly_boolean s.daily).length := hH ▸ hb
    rw [List.getElem_of_eq hH hb, hourly_boolean_getElem s.daily i h hi hh hb']
    exact hdaily

/-- Closed witness for `core_day_set_hourly_is_daily_broadcast` on
`sampleThermo`. -/
theorem core_day_set_hourly_is_daily_broadcast_witness :
    sampleHeatingSet.hourly.length = 24 * sampleHeatingSet.daily.length ∧
    ∀ (i h : ℕ) (hi : i < sampleHeatingSet.daily.length) (hh : h < 24)
      (hb : 24 * i + h < sampleHeatingSet.hourly.length),
      sampleHeatingSet.daily[i] = true → sampleHeatingSet.hourly[24 * i + h] = true :=
  core_day_set_hourly_is_daily_broadcast.1 sampleThermo CoreDayMethod.entireDataset
    30 0 [sampleHeatingSet] sampleHeatingSet
    (by with_unfolding_all rfl) (List.mem_singleton.mpr rfl)

/-- Pointwise value of the heating thresholds mask. -/
theorem heatingMeetsThresholds_getElem (t : Thermo) (a b : ℚ) (i : ℕ)
    (h : i < (heatingMeetsThresholds t a b).length) (hi : i < t.days.length) :
    (heatingMeetsThresholds t a b)[i] =
      (RVal.le (fin a) (strictSum (t.days[i]).heatRt) &&
       (if t.hasCooling then RVal.le (strictSum (t.days[i]).coolRt) (fin b) else true) &&
       decide (missingCount (t.days[i]).tempIn ≤ 2) &&
       decide (missingCount (t.days[i]).tempOut ≤ 2)) :=
  List.getElem_map ..

/-- Pointwise value of the cooling thresholds mask. -/
theorem coolingMeetsThresholds_getElem (t : Thermo) (a b : ℚ) (i : ℕ)
    (h : i < (coolingMeetsThresholds t a b).length) (hi : i < t.days.length) :
    (coolingMeetsThresholds t a b)[i] =
      ((if t.hasHeating then RVal.le (strictSum (t.days[i]).heatRt) (fin b) else true) &&
       RVal.le (fin a) (strictSum (t.days[i]).coolRt) &&
       decide (missingCount (t.days[i]).tempIn ≤ 2) &&
       decide (missingCount (t.days[i]).tempOut ≤ 2)) :=
  List.getElem_map ..

theorem bool_thresh_iff (x y z w : Bool) (c : Bool) :
    ((x && (if c then y else true) && z && w) = true) ↔
      (x = true ∧ (c = true → y = true) ∧ z = true ∧ w = true) := by
  cases x <;> cases y <;> cases z <;> cases w <;> cases c <;> simp

theorem bool_thresh_iff' (x y z w : Bool) (c : Bool) :
    (((if c then y else true) && x && z && w) = true) ↔
      (x = true ∧ (c = true → y = true) ∧ z = true ∧ w = true) := by
  cases x <;> cases y <;> cases z <;> cases w <;> cases c <;> simp

theorem bool_range_thresh_iff (r x y z w : Bool) (c : Bool) :
    ((r && (x && (if c then y else true) && z && w)) = true) ↔
      (x = true ∧ (c = true → y = true) ∧ z = true ∧ w = true ∧ r = true) := by
  cases r <;> cases x <;> cases y <;> cases z <;> cases w <;> cases c <;> simp

theorem bool_range_thresh_iff' (r x y z w : Bool) (c : Bool) :
    ((r && ((if c then y else true) && x && z && w)) = true) ↔
      (x = true ∧ (c = true → y = true) ∧ z = true ∧ w = true ∧ r = true) := by
  cases r <;> cases x <;> cases y <;> cases z <;> cases w <;> cases c <;> simp

/-- C5: a day is in a produced core day set's daily mask iff the primary-mode
daily runtime is at least the primary minimum, the secondary-mode daily
runtime is at most the secondary maximum (vacuously when the secondary
capability is absent), each temperature series has at most 2 missing hourly
readings that day, and — for the period-based methods — the day falls in the
set's (clipped, left-closed/right-open) window. -/
theorem core_day_inclusion_iff_thresholds :
    (∀ (t : Thermo) (method : CoreDayMethod) (a b : ℚ) (l : List CoreDaySetM)
        (s : CoreDaySetM) (i : ℕ),
        get_core_heating_days t method a b = Except.ok l → s ∈ l →
        ∀ (hi : i < t.days.length) (hi' : i < s.daily.length),
        (s.daily[i] = true ↔
          (RVal.le (fin a) (strictSum (t.days[i]).heatRt) = true ∧
           (t.hasCooling = true →
             RVal.le (strictSum (t.days[i]).coolRt) (fin b) = true) ∧
           missingCount (t.days[i]).tempIn ≤ 2 ∧
           missingCount (t.days[i]).tempOut ≤ 2 ∧
           (method = CoreDayMethod.yearMidToMid →
             _get_range_boolean (t.days[i]).date s.startDate s.endDate = true)))) ∧
    (∀ (t : Thermo) (method : CoreDayMethod) (a b : ℚ) (l : List CoreDaySetM)
        (s : CoreDaySetM) (i : ℕ),
        get_core_cooling_days t method a b = Except.ok l → s ∈ l →
        ∀ (hi : i < t.days.length) (hi' : i < s.daily.length),
        (s.daily[i] = true ↔
          (RVal.le (fin a) (strictSum (t.days[i]).coolRt) = true ∧
           (t.hasHeating = true →
             RVal.le (strictSum (t.days[i]).heatRt) (fin b) = true) ∧
           missingCount (t.days[i]).tempIn ≤ 2 ∧
           missingCount (t.days[i]).tempOut ≤ 2 ∧
           (method = CoreDayMethod.yearEndToEnd →
             _get_range_boolean (t.days[i]).date s.startDate s.endDate = true)))) := by
  constructor
  · intro t method a b l s i hok hs hi hi'
    obtain ⟨-, -, hmid, hrest⟩ := get_core_heating_days_sets t method a b l s hok hs
    by_cases hm : method = CoreDayMethod.yearMidToMid
    · subst hm
      rw [List.getElem_of_eq (hmid rfl) hi', List.getElem_zipWith, List.getElem_map,
        heatingMeetsThresholds_getElem t a b i (by simpa [heatingMeetsThresholds]
          using hi) hi, bool_range_thresh_iff]
      simp [decide_eq_true_iff]
    · rw [List.getElem_of_eq (hrest hm) hi',
        heatingMeetsThresholds_getElem t a b i (by simpa [heatingMeetsThresholds]
          using hi) hi, bool_thresh_iff]
      simp [decide_eq_true_iff, hm]
  · intro t method a b l s i hok hs hi hi'
    obtain ⟨-, -, hmid, hrest⟩ := get_core_cooling_days_sets t method a b l s hok hs
    by_cases hm : method = CoreDayMethod.yearEndToEnd
    · subst hm
      rw [List.getElem_of_eq (hmid rfl) hi', List.getElem_zipWith, List.getElem_map,
        coolingMeetsThresholds_getElem t a b i (by simpa [coolingMeetsThresholds]
          using hi) hi, bool_range_thresh_iff']
      simp [decide_eq_true_iff]
    · rw [List.getElem_of_eq (hrest hm) hi',
        coolingMeetsThresholds_getElem t a b i (by simpa [coolingMeetsThresholds]
          using hi) hi, bool_thresh_iff']
      simp [decide_eq_true_iff, hm]

/-- Closed witness for `core_day_inclusion_iff_thresholds` on `sampleThermo`
(heating, `entire_dataset`, day 0). -/
theorem core_day_inclusion_iff_thresholds_witness :
    sampleHeatingSet.daily.get ⟨0, by decide⟩ = true ↔
      (RVal.le (fin 30) (strictSum (sampleThermo.days.get ⟨0, by decide⟩).heatRt) = true ∧
       (sampleThermo.hasCooling = true →
         RVal.le (strictSum (sampleThermo.days.get ⟨0, by decide⟩).coolRt) (fin 0) = true) ∧
       missingCount (sampleThermo.days.get ⟨0, by decide⟩).tempIn ≤ 2 ∧
       missingCount (sampleThermo.days.get ⟨0, by decide⟩).tempOut ≤ 2 ∧
       (CoreDayMethod.entireDataset = CoreDayMethod.yearMidToMid →
         _get_range_boolean (sampleThermo.days.get ⟨0, by decide⟩).date
           sampleHeatingSet.startDate sampleHeatingSet.endDate = true)) :=
  core_day_inclusion_iff_thresholds.1 sampleThermo CoreDayMethod.entireDataset 30 0
    [sampleHeatingSet] sampleHeatingSet 0 (by with_unfolding_all rfl)
    (List.mem_singleton.mpr rfl) (by decide) (by decide)

/-- C3 (amended): on a zero-length input series, core-day-set detection does
not return masks at all — both the period-based methods and `entire_dataset`
raise `IndexError` when reading the first date of the empty daily runtime
index (lines 512 and 606). -/
theorem core_day_detection_empty_input_raises :
    ∀ (t : Thermo) (method : CoreDayMethod) (a b : ℚ), t.days = [] →
      (t.hasHeating = true → method ≠ CoreDayMethod.yearEndToEnd →
        get_core_heating_days t method a b = Except.error PErr.indexError) ∧
      (t.hasCooling = true → method ≠ CoreDayMethod.yearMidToMid →
        get_core_cooling_days t method a b = Except.error PErr.indexError) := by
  intro t method a b hdays
  constructor
  · intro hheat hmeth
    simp [get_core_heating_days, hdays, hmeth, hheat]
  · intro hcool hmeth
    simp [get_core_cooling_days, hdays, hmeth, hcool]

/-- Counterexample to C3 as frozen: with zero-length input the
`entire_dataset` method does not return one empty-mask `CoreDaySet`, and the
period-based methods do not return an empty list — all four calls raise
`IndexError`. -/
theorem core_day_detection_empty_input_counterexample :
    get_core_heating_days ⟨true, true, []⟩ CoreDayMethod.entireDataset 30 0
      = Except.error PErr.indexError ∧
    get_core_heating_days ⟨true, true, []⟩ CoreDayMethod.yearMidToMid 30 0
      = Except.error PErr.indexError ∧
    get_core_cooling_days ⟨true, true, []⟩ CoreDayMethod.entireDataset 30 0
      = Except.error PErr.indexError ∧
    get_core_cooling_days ⟨true, true, []⟩ CoreDayMethod.yearEndToEnd 30 0
      = Except.error PErr.indexError :=
  ⟨rfl, rfl, rfl, rfl⟩

/-- Closed witness for `core_day_detection_empty_input_raises`. -/
theorem core_day_detection_empty_input_raises_witness :
    get_core_heating_days ⟨true, true, []⟩ CoreDayMethod.entireDataset 30 0
      = Except.error PErr.indexError ∧
    get_core_cooling_days ⟨true, true, []⟩ CoreDayMethod.entireDataset 30 0
      = Except.error PErr.indexError :=
  ⟨(core_day_detection_empty_input_raises ⟨true, true, []⟩
      CoreDayMethod.entireDataset 30 0 rfl).1 rfl (by decide),
   (core_day_detection_empty_input_raises ⟨true, true, []⟩
      CoreDayMethod.entireDataset 30 0 rfl).2 rfl (by decide)⟩

/-! Arithmetic facts about `daysBeforeMonth`. -/

theorem daysBeforeMonth_leap (m : ℕ) (h1 : 1 ≤ m) (h12 : m ≤ 12) :
    daysBeforeMonth true m
      = daysBeforeMonth false m + (if 3 ≤ m then 1 else 0) := by
  interval_cases m <;> decide

theorem daysBeforeMonth_ge_59 (m : ℕ) (h3 : 3 ≤ m) (h12 : m ≤ 12) :
    59 ≤ daysBeforeMonth false m := by
  interval_cases m <;> decide

theorem daysBeforeMonth_le_2 (m : ℕ) (h2 : m ≤ 2) :
    daysBeforeMonth true m = daysBeforeMonth false m := by
  interval_cases m <;> decide

/-- Counterexample to C9 as frozen: February 28 of the leap year 2020 (which
is not February 29) does not receive the hour-of-year of February 28 in a
non-leap year — the `dayofyear >= 59` leap adjustment already fires on
February 28 itself, shifting it onto February 27's rows. -/
theorem hour_of_year_feb28_counterexample :
    hour_of_year ⟨2020, 2, 28⟩ 0 = 1369 ∧
    nonLeapHourOfYear 2 28 0 = 1393 ∧
    hour_of_year ⟨2020, 2, 28⟩ 0 = nonLeapHourOfYear 2 27 0 := by
  refine ⟨by decide, by decide, by decide⟩

/-- C9 (amended): the hour-of-year index is leap-aware with the adjustment
applied from February 28 onward: in a non-leap year, and in a leap year
strictly before February 28 or from March 1 onward, each date keeps its
non-leap-year row; in a leap year February 29 maps onto February 28's rows
(as the claim says) but February 28 maps onto February 27's rows. -/
theorem hour_of_year_leap_adjustment (d : Date) (h : ℕ) (hv : ValidDate d) :
    (isLeapYear d.year = false →
       hour_of_year d h = nonLeapHourOfYear d.month d.day h) ∧
    (isLeapYear d.year = true →
       ((d.month = 1 ∨ (d.month = 2 ∧ d.day ≤ 27)) →
          hour_of_year d h = nonLeapHourOfYear d.month d.day h) ∧
       (d.month = 2 → d.day = 28 → hour_of_year d h = nonLeapHourOfYear 2 27 h) ∧
       (d.month = 2 → d.day = 29 → hour_of_year d h = nonLeapHourOfYear 2 28 h) ∧
       (3 ≤ d.month →
          hour_of_year d h = nonLeapHourOfYear d.month d.day h)) := by
  obtain ⟨hm1, hm12, hd1, hdm⟩ := hv
  constructor
  · intro hL
    unfold hour_of_year nonLeapHourOfYear dayOfYear
    rw [hL]
    simp
  · intro hL
    refine ⟨?_, ?_, ?_, ?_⟩
    · intro hcase
      have hm2 : d.month ≤ 2 := by
        rcases hcase with h1 | ⟨h2, -⟩
        · omega
        · omega
      have hdoy : dayOfYear d = daysBeforeMonth false d.month + d.day := by
        unfold dayOfYear
        rw [hL, daysBeforeMonth_le_2 d.month hm2]
      have hlt : dayOfYear d < 59 := by
        rw [hdoy]
        rcases hcase with h1 | ⟨h2, h27⟩
        · have hz : daysBeforeMonth false d.month = 0 := by
            rw [h1]
            decide
          rw [h1] at hdm
          have h31 : monthLength (isLeapYear d.year) 1 = 31 := rfl
          rw [h31] at hdm
          omega
        · have h31 : daysBeforeMonth false d.month = 31 := by
            rw [h2]
            decide
          omega
      unfold hour_of_year
      rw [hL, Bool.true_and, if_neg (by simpa using Nat.not_le.mpr hlt), hdoy]
      unfold nonLeapHourOfYear
      push_cast
      ring
    · intro h2 h28
      have hdoy : dayOfYear d = 59 := by
        unfold dayOfYear
        rw [hL, h2, h28]
        decide
      unfold hour_of_year
      rw [hL, Bool.true_and, if_pos (by simp [hdoy]), hdoy]
      unfold nonLeapHourOfYear
      have h31 : daysBeforeMonth false 2 = 31 := by decide
      rw [h31]
      norm_num
    · intro h2 h29
      have hdoy : dayOfYear d = 60 := by
        unfold dayOfYear
        rw [hL, h2, h29]
        decide
      unfold hour_of_year
      rw [hL, Bool.true_and, if_pos (by simp [hdoy]), hdoy]
      unfold nonLeapHourOfYear
      have h31 : daysBeforeMonth false 2 = 31 := by decide
      rw [h31]
      norm_num
    · intro h3
      have hdoy : dayOfYear d = daysBeforeMonth false d.month + d.day + 1 := by
        unfold dayOfYear
        rw [hL, daysBeforeMonth_leap d.month hm1 hm12, if_pos h3]
        omega
      have hge59 : 59 ≤ daysBeforeMonth false d.month :=
        daysBeforeMonth_ge_59 d.month h3 hm12
      unfold hour_of_year
      rw [hL, Bool.true_and, if_pos (by
        rw [decide_eq_true_iff, hdoy]
        omega), hdoy]
      unfold nonLeapHourOfYear
      push_cast
      ring

/-- Closed witness for `hour_of_year_leap_adjustment` at March 1 of the leap
year 2020, hour 5. -/
theorem hour_of_year_leap_adjustment_witness :
    (isLeapYear (2020 : ℤ) = false →
       hour_of_year ⟨2020, 3, 1⟩ 5 = nonLeapHourOfYear 3 1 5) ∧
    (isLeapYear (2020 : ℤ) = true →
       (((3 : ℕ) = 1 ∨ ((3 : ℕ) = 2 ∧ (1 : ℕ) ≤ 27)) →
          hour_of_year ⟨2020, 3, 1⟩ 5 = nonLeapHourOfYear 3 1 5) ∧
       ((3 : ℕ) = 2 → (1 : ℕ) = 28 →
          hour_of_year ⟨2020, 3, 1⟩ 5 = nonLeapHourOfYear 2 27 5) ∧
       ((3 : ℕ) = 2 → (1 : ℕ) = 29 →
          hour_of_year ⟨2020, 3, 1⟩ 5 = nonLeapHourOfYear 2 28 5) ∧
       ((3 : ℕ) ≤ 3 →
          hour_of_year ⟨2020, 3, 1⟩ 5 = nonLeapHourOfYear 3 1 5)) :=
  hour_of_year_leap_adjustment ⟨2020, 3, 1⟩ 5 (by constructor <;> decide)

/-! ## Interpolation (`Thermostat._interpolate`, lines 406-409)

`series.interpolate(method="linear", limit=1, limit_direction="both")` in
pandas 0.25.3: the full linear interpolation over the valid points is
computed (clamping to the nearest valid value beyond the first/last valid
sample, as `np.interp` does), and then `_interp_limit(invalid, 1, 1)`
restores to NaN every missing position that violates the forward limit
*and* the backward limit.  A position violates the forward limit iff its
immediate predecessor is missing or nonexistent (the leading-run term
`(~invalid[:limit+1]).cumsum() == 0` marks every element of a leading NaN
run), and symmetrically backward.  Hence a NaN is filled iff its immediate
predecessor or successor is a valid sample; the outer NaNs of runs touching
the series boundary stay NaN.  An all-NaN or NaN-free series is returned
unchanged. -/

/-- Index of the nearest valid (non-NaN) sample strictly before `i`. -/
def prevValid (xs : List RVal) (i : ℕ) : Option ℕ :=
  (List.range i).reverse.find? (fun j => !(xs.getD j RVal.nan).isNan)

/-- Index of the nearest valid (non-NaN) sample strictly after `i`. -/
def nextValid (xs : List RVal) (i : ℕ) : Option ℕ :=
  (List.range' (i + 1) (xs.length - (i + 1))).find?
    (fun j => !(xs.getD j RVal.nan).isNan)

/-- The value `np.interp` assigns at position `i` of an hourly (unit-spaced)
index: linear interpolation between the surrounding valid samples, clamped
to the nearest valid sample beyond the ends. -/
def interpValue (xs : List RVal) (i : ℕ) : RVal :=
  match prevValid xs i, nextValid xs i with
  | some p, some q =>
      RVal.add (xs.getD p RVal.nan)
        (RVal.mul
          (RVal.div (RVal.sub (xs.getD q RVal.nan) (xs.getD p RVal.nan))
            (fin ((q : ℚ) - (p : ℚ))))
          (fin ((i : ℚ) - (p : ℚ))))
  | none, some q => xs.getD q RVal.nan
  | some p, none => xs.getD p RVal.nan
  | none, none => RVal.nan

/-- With `limit=1` and `limit_direction="both"`, a NaN is filled iff its
immediate predecessor or its immediate successor exists and is a valid
sample (`_interp_limit(invalid, 1, 1)` preserves all other NaNs). -/
def fillable (xs : List RVal) (i : ℕ) : Bool :=
  (decide (0 < i) && !(xs.getD (i - 1) RVal.nan).isNan) ||
  (decide (i + 1 < xs.length) && !(xs.getD (i + 1) RVal.nan).isNan)

/-- `core.py::Thermostat._interpolate` (lines 406-409): linear interpolation
with `limit=1, limit_direction="both"`; any other method returns the series
unchanged. -/
def _interpolate (xs : List RVal) (method : String) : List RVal :=
  if method ≠ "linear" then xs
  else if (xs.filter (fun x => ¬ x.isNan)).isEmpty then xs
  else (List.range xs.length).map (fun i =>
    if (xs.getD i RVal.nan).isNan then
      (if fillable xs i then interpValue xs i else RVal.nan)
    else xs.getD i RVal.nan)

/-- Counterexample to C6 as frozen: a gap of two consecutive missing hours
between 1 and 4 does not remain missing — both samples are filled (with 2
and 3), because `limit_direction="both"` fills one NaN from each end of
every gap. -/
theorem interpolate_two_gap_counterexample :
    _interpolate [fin 1, RVal.nan, RVal.nan, fin 4] "linear"
      = [fin 1, fin 2, fin 3, fin 4] := by
  with_unfolding_all decide

theorem RVal.isNan_false_iff (x : RVal) : x.isNan = false ↔ x ≠ RVal.nan := by
  cases x <;> simp [RVal.isNan]

theorem prevValid_some (xs : List RVal) (i p : ℕ) (h : prevValid xs i = some p) :
    p < i ∧ (xs.getD p RVal.nan).isNan = false := by
  constructor
  · have hmem := List.mem_of_find?_eq_some h
    rw [List.mem_reverse, List.mem_range] at hmem
    exact hmem
  · have := List.find?_some h
    simpa using this

theorem nextValid_some (xs : List RVal) (i q : ℕ) (h : nextValid xs i = some q) :
    i < q ∧ q < xs.length ∧ (xs.getD q RVal.nan).isNan = false := by
  have hmem := List.mem_of_find?_eq_some h
  rw [List.mem_range'_1] at hmem
  refine ⟨by omega, by omega, ?_⟩
  have := List.find?_some h
  simpa using this

theorem prevValid_none (xs : List RVal) (i : ℕ) (h : prevValid xs i = none) :
    ∀ j, j < i → (xs.getD j RVal.nan).isNan = true := by
  intro j hj
  have := List.find?_eq_none.mp h j
    (by rw [List.mem_reverse, List.mem_range]; exact hj)
  simpa using this

theorem nextValid_none (xs : List RVal) (i : ℕ) (h : nextValid xs i = none) :
    ∀ j, i < j → j < xs.length → (xs.getD j RVal.nan).isNan = true := by
  intro j hij hjn
  have := List.find?_eq_none.mp h j
    (by rw [List.mem_range'_1]; omega)
  simpa using this

theorem getD_mem_of_lt (xs : List RVal) (j : ℕ) (hj : j < xs.length) :
    xs.getD j RVal.nan ∈ xs := by
  rw [List.getD_eq_getElem xs RVal.nan hj]
  exact List.getElem_mem hj

theorem interpValue_ne_nan (xs : List RVal) (i : ℕ) (hi : i < xs.length)
    (hfin : ∀ x ∈ xs, x = RVal.nan ∨ ∃ q : ℚ, x = fin q)
    (hvalid : ∃ j, ∃ _ : j < xs.length, (xs.getD j RVal.nan).isNan = false)
    (hxi : (xs.getD i RVal.nan).isNan = true) :
    interpValue xs i ≠ RVal.nan := by
  unfold interpValue
  cases hp : prevValid xs i with
  | some p =>
    cases hq : nextValid xs i with
    | some q =>
        obtain ⟨hpi, hpv⟩ := prevValid_some xs i p hp
        obtain ⟨hiq, hqn, hqv⟩ := nextValid_some xs i q hq
        obtain ⟨a, ha⟩ := (hfin _ (getD_mem_of_lt xs p (hpi.trans hi))).resolve_left
          ((RVal.isNan_false_iff _).mp hpv)
        obtain ⟨b, hb⟩ := (hfin _ (getD_mem_of_lt xs q hqn)).resolve_left
          ((RVal.isNan_false_iff _).mp hqv)
        show RVal.add (xs.getD p RVal.nan)
          (RVal.mul
            (RVal.div (RVal.sub (xs.getD q RVal.nan) (xs.getD p RVal.nan))
              (fin ((q : ℚ) - (p : ℚ))))
            (fin ((i : ℚ) - (p : ℚ)))) ≠ RVal.nan
        rw [ha, hb]
        have hne : ((q : ℚ)) - ((p : ℚ)) ≠ 0 := by
          have : (p : ℚ) < (q : ℚ) := by exact_mod_cast hpi.trans hiq
          exact sub_ne_zero_of_ne (ne_of_gt this)
        simp [RVal.sub, RVal.neg, RVal.add, RVal.mul, RVal.div, if_neg hne]
    | none =>
        obtain ⟨-, hpv⟩ := prevValid_some xs i p hp
        show xs.getD p RVal.nan ≠ RVal.nan
        exact (RVal.isNan_false_iff _).mp hpv
  | none =>
    cases hq : nextValid xs i with
    | some q =>
        obtain ⟨-, -, hqv⟩ := nextValid_some xs i q hq
        show xs.getD q RVal.nan ≠ RVal.nan
        exact (RVal.isNan_false_iff _).mp hqv
    | none =>
        obtain ⟨j, hjn, hjv⟩ := hvalid
        rcases Nat.lt_trichotomy j i with hj | hj | hj
        · rw [prevValid_none xs i hp j hj] at hjv
          exact absurd hjv (by simp)
        · subst hj
          rw [hxi] at hjv
          exact absurd hjv (by simp)
        · rw [nextValid_none xs i hq j hj hjn] at hjv
          exact absurd hjv (by simp)

theorem RVal.isNan_true_iff (x : RVal) : x.isNan = true ↔ x = RVal.nan := by
  cases x <;> simp [RVal.isNan]

/-- C6 (amended): the constructor's interpolation fills exactly the missing
samples that are adjacent to a present sample: single gaps are filled,
interior gaps of two missing hours are filled entirely, the interior of
longer gaps stays NaN, and the outer samples of gaps touching the series
boundary also stay NaN; non-missing samples are returned unchanged. -/
theorem interpolate_fills_nans_adjacent_to_valid
    (xs : List RVal)
    (hfin : ∀ x ∈ xs, x = RVal.nan ∨ ∃ q : ℚ, x = fin q)
    (hvalid : (xs.filter (fun x => ¬ x.isNan)).isEmpty = false) :
    (_interpolate xs "linear").length = xs.length ∧
    ∀ i, i < xs.length →
      (((_interpolate xs "linear").getD i RVal.nan = RVal.nan ↔
        (xs.getD i RVal.nan = RVal.nan ∧
         (i = 0 ∨ xs.getD (i - 1) RVal.nan = RVal.nan) ∧
         (i + 1 = xs.length ∨ xs.getD (i + 1) RVal.nan = RVal.nan))) ∧
      (xs.getD i RVal.nan ≠ RVal.nan →
         (_interpolate xs "linear").getD i RVal.nan = xs.getD i RVal.nan)) := by
  have hres : _interpolate xs "linear" = (List.range xs.length).map (fun i =>
      if (xs.getD i RVal.nan).isNan then
        (if fillable xs i then interpValue xs i else RVal.nan)
      else xs.getD i RVal.nan) := by
    unfold _interpolate
    rw [if_neg (by simp), if_neg (by rw [hvalid]; exact Bool.false_ne_true)]
  have hlen : (_interpolate xs "linear").length = xs.length := by
    rw [hres]
    simp
  have hgd : ∀ i, i < xs.length → (_interpolate xs "linear").getD i RVal.nan
      = (if (xs.getD i RVal.nan).isNan then
          (if fillable xs i then interpValue xs i else RVal.nan)
         else xs.getD i RVal.nan) := by
    intro i hi
    rw [List.getD_eq_getElem _ _ (hlen ▸ hi)]
    rw [List.getElem_of_eq hres (hlen ▸ hi), List.getElem_map, List.getElem_range]
  have hv : ∃ j, ∃ _ : j < xs.length, (xs.getD j RVal.nan).isNan = false := by
    have hne : xs.filter (fun x => ¬ x.isNan) ≠ [] := by
      intro hnil
      rw [hnil] at hvalid
      exact absurd hvalid (by simp)
    obtain ⟨x, hx⟩ := List.exists_mem_of_ne_nil _ hne
    have hx' := List.mem_filter.mp hx
    obtain ⟨j, hj, hjx⟩ := List.mem_iff_getElem.mp hx'.1
    refine ⟨j, hj, ?_⟩
    rw [List.getD_eq_getElem _ _ hj, hjx]
    simpa using hx'.2
  refine ⟨hlen, ?_⟩
  intro i hi
  by_cases hx : (xs.getD i RVal.nan).isNan = true
  · have hxeq : xs.getD i RVal.nan = RVal.nan := (RVal.isNan_true_iff _).mp hx
    rw [hgd i hi, if_pos hx]
    by_cases hf : fillable xs i = true
    · rw [if_pos hf]
      have hnn := interpValue_ne_nan xs i hi hfin hv hx
      refine ⟨⟨fun h => absurd h hnn, ?_⟩, fun hxne => absurd hxeq hxne⟩
      rintro ⟨-, hl, hr⟩
      exfalso
      unfold fillable at hf
      simp only [Bool.or_eq_true, Bool.and_eq_true, decide_eq_true_iff,
        Bool.not_eq_true'] at hf
      rcases hf with ⟨h0, hlv⟩ | ⟨hlt, hrv⟩
      · rcases hl with h | h
        · omega
        · rw [h] at hlv
          exact absurd hlv (by simp [RVal.isNan])
      · rcases hr with h | h
        · omega
        · rw [h] at hrv
          exact absurd hrv (by simp [RVal.isNan])
    · rw [if_neg hf]
      refine ⟨⟨fun _ => ?_, fun _ => rfl⟩, fun hxne => absurd hxeq hxne⟩
      have hf' := hf
      unfold fillable at hf'
      simp only [Bool.or_eq_true, Bool.and_eq_true, decide_eq_true_iff,
        Bool.not_eq_true', not_or, not_and, Bool.not_eq_false] at hf'
      obtain ⟨h1, h2⟩ := hf'
      refine ⟨hxeq, ?_, ?_⟩
      · by_cases h0 : i = 0
        · exact Or.inl h0
        · exact Or.inr ((RVal.isNan_true_iff _).mp (h1 (Nat.pos_of_ne_zero h0)))
      · by_cases hlast : i + 1 = xs.length
        · exact Or.inl hlast
        · exact Or.inr ((RVal.isNan_true_iff _).mp (h2 (by omega)))
  · have hxf : (xs.getD i RVal.nan).isNan = false := by simpa using hx
    have hxne : xs.getD i RVal.nan ≠ RVal.nan := (RVal.isNan_false_iff _).mp hxf
    rw [hgd i hi, if_neg hx]
    exact ⟨⟨fun h => absurd h hxne, fun h => absurd h.1 hxne⟩, fun _ => rfl⟩

/-- Closed witness for `interpolate_fills_nans_adjacent_to_valid` on a
series with a leading missing run and a three-hour interior gap. -/
theorem interpolate_fills_nans_adjacent_to_valid_witness :
    (_interpolate [RVal.nan, RVal.nan, fin 1, RVal.nan, RVal.nan, RVal.nan, fin 5]
        "linear").length
      = ([RVal.nan, RVal.nan, fin 1, RVal.nan, RVal.nan, RVal.nan, fin 5]
          : List RVal).length ∧
    ∀ i, i < ([RVal.nan, RVal.nan, fin 1, RVal.nan, RVal.nan, RVal.nan, fin 5]
        : List RVal).length →
      (((_interpolate [RVal.nan, RVal.nan, fin 1, RVal.nan, RVal.nan, RVal.nan,
            fin 5] "linear").getD i RVal.nan = RVal.nan ↔
        (([RVal.nan, RVal.nan, fin 1, RVal.nan, RVal.nan, RVal.nan, fin 5]
            : List RVal).getD i RVal.nan = RVal.nan ∧
         (i = 0 ∨ ([RVal.nan, RVal.nan, fin 1, RVal.nan, RVal.nan, RVal.nan, fin 5]
            : List RVal).getD (i - 1) RVal.nan = RVal.nan) ∧
         (i + 1 = ([RVal.nan, RVal.nan, fin 1, RVal.nan, RVal.nan, RVal.nan, fin 5]
              : List RVal).length ∨
          ([RVal.nan, RVal.nan, fin 1, RVal.nan, RVal.nan, RVal.nan, fin 5]
            : List RVal).getD (i + 1) RVal.nan = RVal.nan))) ∧
      (([RVal.nan, RVal.nan, fin 1, RVal.nan, RVal.nan, RVal.nan, fin 5]
          : List RVal).getD i RVal.nan ≠ RVal.nan →
        (_interpolate [RVal.nan, RVal.nan, fin 1, RVal.nan, RVal.nan, RVal.nan,
            fin 5] "linear").getD i RVal.nan
          = ([RVal.nan, RVal.nan, fin 1, RVal.nan, RVal.nan, RVal.nan, fin 5]
              : List RVal).getD i RVal.nan)) :=
  interpolate_fills_nans_adjacent_to_valid
    [RVal.nan, RVal.nan, fin 1, RVal.nan, RVal.nan, RVal.nan, fin 5]
    (by
      intro x hx
      simp only [List.mem_cons, List.not_mem_nil, or_false] at hx
      rcases hx with rfl | rfl | rfl | rfl | rfl | rfl | rfl
      · exact Or.inl rfl
      · exact Or.inl rfl
      · exact Or.inr ⟨1, rfl⟩
      · exact Or.inl rfl
      · exact Or.inl rfl
      · exact Or.inl rfl
      · exact Or.inr ⟨5, rfl⟩)
    (by decide)

/-! ## Demand-model fitters (`get_cooling_demand`, lines 928-1087, and
`get_heating_demand`, lines 1089-1247)

The scalar nonlinear solve `scipy.optimize.leastsq(estimate_errors, 0,
full_output=1)` is abstracted by the answer `tauOut` it would return; its
only behaviour the code relies on is that it raises `TypeError` exactly when
the residual vector is shorter than the one-dimensional parameter vector,
i.e. when the core day set selects zero days — the `except TypeError` branch
(lines 1030-1048 / 1191-1209) then returns an empty demand series and NaN
statistics, and the code's `assert daily_runtime.shape[0] == 0` documents
that this is the only `TypeError` source. -/

/-- The fitted-model result record: demand series plus the statistics the claims are
about (solver diagnostics `cov_x`/`nfev`/`mesg` are omitted). -/
structure DemandResult where
  demand : List RVal
  tau : RVal
  alpha : RVal
  mse : RVal
  rmse : RVal
  cvrmse : RVal
  mape : RVal
  mae : RVal
  deriving DecidableEq, Repr

/-- `scipy.optimize.leastsq` on a 1-parameter residual function of `m`
residuals: `TypeError` iff `m = 0`, otherwise the solver's answer. -/
def leastsqModel (tauOut : ℚ) (m : ℕ) : Except Unit ℚ :=
  if m = 0 then Except.error () else Except.ok tauOut

/-- Boolean-mask selection `series[mask]` over the aligned day records. -/
def selectedDays (t : Thermo) (daily : List Bool) : List DayRecord :=
  (t.days.zip daily).filterMap (fun p => if p.2 then some p.1 else none)

/-- `hourly ΔT = temperature_in - temperature_out` over one day. -/
def deltaT (d : DayRecord) : List RVal :=
  List.zipWith RVal.sub d.tempIn d.tempOut

/-- `calc_cdd(tau)` (lines 997-1005): per selected day,
`sum(max(0, tau - ΔT)) / 24` (the groupby-day pandas sum skips NaN). -/
def calc_cdd (sel : List DayRecord) (tau : RVal) : List RVal :=
  sel.map (fun d =>
    RVal.div (psum ((deltaT d).map (fun x => RVal.max0 (RVal.sub tau x)))) (fin 24))

/-- `calc_hdd(tau)` (lines 1156-1164): per selected day,
`sum(max(0, ΔT - tau)) / 24`. -/
def calc_hdd (sel : List DayRecord) (tau : RVal) : List RVal :=
  sel.map (fun d =>
    RVal.div (psum ((deltaT d).map (fun x => RVal.max0 (RVal.sub x tau)))) (fin 24))

/-- `core.py::Thermostat.get_cooling_demand`. -/
def get_cooling_demand (sqrtQ : ℚ → ℚ) (tauOut : ℚ) (t : Thermo)
    (core : CoreDaySetM) : Except PErr DemandResult :=
  if ¬ t.hasCooling then Except.error PErr.valueError
  else
    let sel := selectedDays t core.daily
    let daily_runtime := sel.map (fun d => strictSum d.coolRt)
    let total_runtime := psum daily_runtime
    match leastsqModel tauOut sel.length with
    | Except.error _ =>
        Except.ok ⟨[], RVal.nan, RVal.nan, RVal.nan, RVal.nan, RVal.nan,
          RVal.nan, RVal.nan⟩
    | Except.ok tau =>
        let cdd := calc_cdd sel (fin tau)
        let total_cdd := npsum cdd
        let alpha := if total_cdd ≠ fin 0
          then RVal.div total_runtime total_cdd else RVal.nan
        let runtime_estimate := cdd.map (fun x => RVal.mul x alpha)
        let errors := List.zipWith RVal.sub daily_runtime runtime_estimate
        let mse := nanmean (errors.map (fun e => RVal.mul e e))
        let rmse := RVal.rsqrt sqrtQ mse
        let mean_daily_runtime := nanmean daily_runtime
        let cvrmse := RVal.div rmse mean_daily_runtime
        let mape := nanmean (errors.map (fun e => RVal.abs (RVal.div e mean_daily_runtime)))
        let mae := nanmean (errors.map RVal.abs)
        Except.ok ⟨cdd, fin tau, alpha, mse, rmse, cvrmse, mape, mae⟩

/-- `core.py::Thermostat.get_heating_demand`. -/
def get_heating_demand (sqrtQ : ℚ → ℚ) (tauOut : ℚ) (t : Thermo)
    (core : CoreDaySetM) : Except PErr DemandResult :=
  if ¬ t.hasHeating then Except.error PErr.valueError
  else
    let sel := selectedDays t core.daily
    let daily_runtime := sel.map (fun d => strictSum d.heatRt)
    let total_runtime := psum daily_runtime
    match leastsqModel tauOut sel.length with
    | Except.error _ =>
        Except.ok ⟨[], RVal.nan, RVal.nan, RVal.nan, RVal.nan, RVal.nan,
          RVal.nan, RVal.nan⟩
    | Except.ok tau =>
        let hdd := calc_hdd sel (fin tau)
        let total_hdd := npsum hdd
        let alpha := if total_hdd ≠ fin 0
          then RVal.div total_runtime total_hdd else RVal.nan
        let runtime_estimate := hdd.map (fun x => RVal.mul x alpha)
        let errors := List.zipWith RVal.sub daily_runtime runtime_estimate
        let mse := nanmean (errors.map (fun e => RVal.mul e e))
        let rmse := RVal.rsqrt sqrtQ mse
        let mean_daily_runtime := nanmean daily_runtime
        let cvrmse := RVal.div rmse mean_daily_runtime
        let mape := nanmean (errors.map (fun e => RVal.abs (RVal.div e mean_daily_runtime)))
        let mae := nanmean (errors.map RVal.abs)
        Except.ok ⟨hdd, fin tau, alpha, mse, rmse, cvrmse, mape, mae⟩

theorem selectedDays_eq_nil (t : Thermo) (daily : List Bool)
    (h : ∀ b ∈ daily, b = false) : selectedDays t daily = [] := by
  unfold selectedDays
  rw [List.filterMap_eq_nil_iff]
  intro p hp
  rw [h p.2 (List.of_mem_zip hp).2]
  rfl

/-- C2: on a core day set whose daily mask selects zero days, both demand
fitters catch the solver's failure and return (no exception) an empty demand
series with NaN tau, alpha, mse, rmse, cvrmse, mape and mae. -/
theorem demand_fit_empty_core_day_set :
    ∀ (sqrtQ : ℚ → ℚ) (tauOut : ℚ) (t : Thermo) (core : CoreDaySetM),
      (∀ b ∈ core.daily, b = false) →
      (t.hasCooling = true →
        get_cooling_demand sqrtQ tauOut t core
          = Except.ok ⟨[], RVal.nan, RVal.nan, RVal.nan, RVal.nan, RVal.nan,
              RVal.nan, RVal.nan⟩) ∧
      (t.hasHeating = true →
        get_heating_demand sqrtQ tauOut t core
          = Except.ok ⟨[], RVal.nan, RVal.nan, RVal.nan, RVal.nan, RVal.nan,
              RVal.nan, RVal.nan⟩) := by
  intro sqrtQ tauOut t core hmask
  have hsel := selectedDays_eq_nil t core.daily hmask
  constructor
  · intro hcool
    unfold get_cooling_demand
    rw [if_neg (by simp [hcool])]
    simp only [hsel, leastsqModel, List.length_nil, if_pos rfl]
    rfl
  · intro hheat
    unfold get_heating_demand
    rw [if_neg (by simp [hheat])]
    simp only [hsel, leastsqModel, List.length_nil, if_pos rfl]
    rfl

/-- Closed witness for `demand_fit_empty_core_day_set`: `sampleThermo` with
an all-`False` one-day mask. -/
theorem demand_fit_empty_core_day_set_witness :
    get_cooling_demand id 0 sampleThermo
        ⟨"cooling_ALL", [false], List.replicate 24 false, ⟨2011, 1, 1⟩, ⟨2011, 1, 1⟩⟩
      = Except.ok ⟨[], RVal.nan, RVal.nan, RVal.nan, RVal.nan, RVal.nan,
          RVal.nan, RVal.nan⟩ ∧
    get_heating_demand id 0 sampleThermo
        ⟨"heating_ALL", [false], List.replicate 24 false, ⟨2011, 1, 1⟩, ⟨2011, 1, 1⟩⟩
      = Except.ok ⟨[], RVal.nan, RVal.nan, RVal.nan, RVal.nan, RVal.nan,
          RVal.nan, RVal.nan⟩ :=
  ⟨(demand_fit_empty_core_day_set id 0 sampleThermo
      ⟨"cooling_ALL", [false], List.replicate 24 false, ⟨2011, 1, 1⟩, ⟨2011, 1, 1⟩⟩
      (by decide)).1 rfl,
   (demand_fit_empty_core_day_set id 0 sampleThermo
      ⟨"heating_ALL", [false], List.replicate 24 false, ⟨2011, 1, 1⟩, ⟨2011, 1, 1⟩⟩
      (by decide)).2 rfl⟩

/-! NaN/sign bookkeeping lemmas feeding the cvrmse analysis. -/

theorem mem_zipWith_sub (R S : List RVal) (x : RVal)
    (h : x ∈ List.zipWith RVal.sub R S) :
    ∃ r ∈ R, ∃ s ∈ S, x = RVal.sub r s := by
  induction R generalizing S with
  | nil => exact absurd h (by simp)
  | cons a t ih =>
      cases S with
      | nil => exact absurd h (by simp)
      | cons b u =>
          rw [List.zipWith_cons_cons, List.mem_cons] at h
          rcases h with rfl | h
          · exact ⟨a, List.mem_cons_self .., b, List.mem_cons_self .., rfl⟩
          · obtain ⟨r, hr, s, hs, rfl⟩ := ih u h
            exact ⟨r, List.mem_cons_of_mem _ hr, s, List.mem_cons_of_mem _ hs, rfl⟩

theorem npsum_nonneg_fin (l : List RVal)
    (h : ∀ x ∈ l, ∃ q : ℚ, 0 ≤ q ∧ x = fin q) :
    ∃ s : ℚ, 0 ≤ s ∧ npsum l = fin s ∧ (s = 0 → ∀ x ∈ l, x = fin 0) := by
  induction l with
  | nil => exact ⟨0, le_refl 0, rfl, fun _ x hx => absurd hx (by simp)⟩
  | cons a t ih =>
      obtain ⟨q, hq, rfl⟩ := h a (List.mem_cons_self ..)
      obtain ⟨s, hs, hsum, hz⟩ := ih (fun x hx => h x (List.mem_cons_of_mem _ hx))
      refine ⟨q + s, by positivity, ?_, ?_⟩
      · show RVal.add (fin q) (npsum t) = fin (q + s)
        rw [hsum]
        rfl
      · intro hqs x hx
        have hq0 : q = 0 := by linarith
        have hs0 : s = 0 := by linarith
        rcases List.mem_cons.mp hx with rfl | hx
        · rw [hq0]
        · exact hz hs0 x hx

theorem npsum_inf_nonneg (l : List RVal)
    (h : ∀ x ∈ l, x = RVal.inf ∨ ∃ q : ℚ, 0 ≤ q ∧ x = fin q) :
    npsum l = RVal.inf ∨ ∃ s : ℚ, 0 ≤ s ∧ npsum l = fin s := by
  induction l with
  | nil => exact Or.inr ⟨0, le_refl 0, rfl⟩
  | cons a t ih =>
      have hrest := ih (fun x hx => h x (List.mem_cons_of_mem _ hx))
      have hadd : npsum (a :: t) = RVal.add a (npsum t) := rfl
      rcases h a (List.mem_cons_self ..) with rfl | ⟨q, hq, rfl⟩
      · rcases hrest with hinf | ⟨s, hs, hfin⟩
        · rw [hadd, hinf]
          exact Or.inl rfl
        · rw [hadd, hfin]
          exact Or.inl rfl
      · rcases hrest with hinf | ⟨s, hs, hfin⟩
        · rw [hadd, hinf]
          exact Or.inl rfl
        · rw [hadd, hfin]
          exact Or.inr ⟨q + s, by positivity, rfl⟩

theorem npsum_all_zero (l : List RVal) (h : ∀ x ∈ l, x = fin 0) :
    npsum l = fin 0 := by
  induction l with
  | nil => rfl
  | cons a t ih =>
      rw [h a (List.mem_cons_self ..)]
      show RVal.add (fin 0) (npsum t) = fin 0
      rw [ih (fun x hx => h x (List.mem_cons_of_mem _ hx))]
      show fin (0 + 0) = fin 0
      norm_num

theorem nanmean_nan_or_zero (l : List RVal)
    (h : ∀ x ∈ l, x = RVal.nan ∨ x = fin 0) :
    nanmean l = RVal.nan ∨ nanmean l = fin 0 := by
  unfold nanmean
  by_cases hE : (l.filter (fun x => ¬ x.isNan)).isEmpty
  · rw [if_pos hE]
    exact Or.inl rfl
  · rw [if_neg hE]
    have hall : ∀ x ∈ l.filter (fun x => ¬ x.isNan), x = fin 0 := by
      intro x hx
      have hx' := List.mem_filter.mp hx
      rcases h x hx'.1 with rfl | rfl
      · exact absurd hx'.2 (by simp [RVal.isNan])
      · rfl
    rw [npsum_all_zero _ hall]
    have hk : (((l.filter (fun x => ¬ x.isNan)).length : ℚ)) ≠ 0 := by
      have : l.filter (fun x => ¬ x.isNan) ≠ [] := by
        intro hnil
        rw [hnil] at hE
        exact hE rfl
      have hpos : 0 < (l.filter (fun x => ¬ x.isNan)).length :=
        List.length_pos.mpr this
      positivity
    right
    simp only [RVal.div, if_neg hk]
    norm_num

theorem nanmean_zero_all (R : List RVal)
    (hR : ∀ x ∈ R, x = RVal.nan ∨ ∃ q : ℚ, 0 ≤ q ∧ x = fin q)
    (hmean : nanmean R = fin 0) :
    psum R = fin 0 ∧ ∀ x ∈ R, x = RVal.nan ∨ x = fin 0 := by
  unfold nanmean at hmean
  by_cases hE : (R.filter (fun x => ¬ x.isNan)).isEmpty
  · rw [if_pos hE] at hmean
    exact absurd hmean (by simp)
  · rw [if_neg hE] at hmean
    have hall : ∀ x ∈ R.filter (fun x => ¬ x.isNan), ∃ q : ℚ, 0 ≤ q ∧ x = fin q := by
      intro x hx
      have hx' := List.mem_filter.mp hx
      rcases hR x hx'.1 with rfl | hq
      · exact absurd hx'.2 (by simp [RVal.isNan])
      · exact hq
    obtain ⟨s, hs, hsum, hz⟩ := npsum_nonneg_fin _ hall
    rw [hsum] at hmean
    have hk : (((R.filter (fun x => ¬ x.isNan)).length : ℚ)) ≠ 0 := by
      have : R.filter (fun x => ¬ x.isNan) ≠ [] := by
        intro hnil
        rw [hnil] at hE
        exact hE rfl
      have hpos : 0 < (R.filter (fun x => ¬ x.isNan)).length :=
        List.length_pos.mpr this
      positivity
    simp only [RVal.div, if_neg hk, RVal.fin.injEq] at hmean
    have hs0 : s = 0 := by
      rw [div_eq_zero_iff] at hmean
      rcases hmean with h | h
      · exact h
      · exact absurd h hk
    constructor
    · show npsum (R.filter (fun x => ¬ x.isNan)) = fin 0
      rw [hsum, hs0]
    · intro x hx
      by_cases hxn : x.isNan = true
      · exact Or.inl ((RVal.isNan_true_iff x).mp hxn)
      · right
        exact hz hs0 x (List.mem_filter.mpr ⟨hx, by simpa using hxn⟩)

theorem cvrmse_nan_aux (sqrtQ : ℚ → ℚ) (hs0 : sqrtQ 0 = 0)
    (R C : List RVal) (alpha : RVal)
    (hRz : ∀ x ∈ R, x = RVal.nan ∨ x = fin 0)
    (hC : ∀ x ∈ C, x = RVal.inf ∨ ∃ q : ℚ, 0 ≤ q ∧ x = fin q)
    (halpha : alpha = fin 0 ∨ alpha = RVal.nan) :
    RVal.div
      (RVal.rsqrt sqrtQ (nanmean
        ((List.zipWith RVal.sub R (C.map (fun c => RVal.mul c alpha))).map
          (fun e => RVal.mul e e))))
      (fin 0) = RVal.nan := by
  have hE : ∀ e ∈ List.zipWith RVal.sub R (C.map (fun c => RVal.mul c alpha)),
      e = RVal.nan ∨ e = fin 0 := by
    intro e he
    obtain ⟨r, hr, y, hy, rfl⟩ := mem_zipWith_sub _ _ _ he
    obtain ⟨c, hc, rfl⟩ := List.mem_map.mp hy
    rcases halpha with rfl | rfl
    · rcases hC c hc with rfl | ⟨q, hq, rfl⟩
      · -- inf * 0 = nan, so the difference is nan
        rcases hRz r hr with rfl | rfl <;>
          simp [RVal.mul, RVal.sub, RVal.neg, RVal.add]
      · rcases hRz r hr with rfl | rfl
        · simp [RVal.mul, RVal.sub, RVal.neg, RVal.add]
        · right
          show RVal.sub (fin 0) (fin (q * 0)) = fin 0
          simp [RVal.mul, RVal.sub, RVal.neg, RVal.add]
    · have hmul : RVal.mul c RVal.nan = RVal.nan := by
        cases c <;> rfl
      rw [hmul]
      left
      cases r <;> rfl
  have hsq : ∀ x ∈ (List.zipWith RVal.sub R
      (C.map (fun c => RVal.mul c alpha))).map (fun e => RVal.mul e e),
      x = RVal.nan ∨ x = fin 0 := by
    intro x hx
    obtain ⟨e, he, rfl⟩ := List.mem_map.mp hx
    rcases hE e he with rfl | rfl
    · left
      rfl
    · right
      show fin (0 * 0) = fin 0
      norm_num
  rcases nanmean_nan_or_zero _ hsq with hmse | hmse <;> rw [hmse]
  · rfl
  · show RVal.div (if (0:ℚ) < 0 then RVal.nan else fin (sqrtQ 0)) (fin 0) = RVal.nan
    rw [if_neg (lt_irrefl 0), hs0]
    rfl

theorem cvrmse_nan_core (sqrtQ : ℚ → ℚ) (hs0 : sqrtQ 0 = 0)
    (R C : List RVal)
    (hR : ∀ x ∈ R, x = RVal.nan ∨ ∃ q : ℚ, 0 ≤ q ∧ x = fin q)
    (hC : ∀ x ∈ C, x = RVal.inf ∨ ∃ q : ℚ, 0 ≤ q ∧ x = fin q)
    (hmean : nanmean R = fin 0) :
    RVal.div
      (RVal.rsqrt sqrtQ (nanmean
        ((List.zipWith RVal.sub R (C.map (fun c => RVal.mul c
          (if npsum C ≠ fin 0 then RVal.div (psum R) (npsum C) else RVal.nan)))).map
          (fun e => RVal.mul e e))))
      (nanmean R) = RVal.nan := by
  obtain ⟨hpsum, hRz⟩ := nanmean_zero_all R hR hmean
  rw [hmean]
  have halpha : (if npsum C ≠ fin 0 then RVal.div (psum R) (npsum C) else RVal.nan)
      = fin 0 ∨
      (if npsum C ≠ fin 0 then RVal.div (psum R) (npsum C) else RVal.nan)
      = RVal.nan := by
    rcases npsum_inf_nonneg C hC with hinf | ⟨s, hs, hfin⟩
    · left
      rw [hinf, if_pos (by rw [hinf] at hinf ⊢; exact fun h => RVal.noConfusion h),
        hpsum]
      rfl
    · by_cases hz : s = 0
      · right
        rw [hfin, hz, if_neg (by simp)]
      · left
        rw [hfin, if_pos (by simpa using hz), hpsum]
        show (if (s:ℚ) = 0 then _ else fin (0 / s)) = fin 0
        rw [if_neg hz]
        norm_num
  rcases halpha with ha | ha <;> rw [ha] <;>
    exact cvrmse_nan_aux sqrtQ hs0 R C _ hRz hC (by simp)

theorem div24_psum_max0_entry (m : List RVal)
    (hm : ∀ x ∈ m, ∃ y, x = RVal.max0 y) :
    RVal.div (psum m) (fin 24) = RVal.inf ∨
      ∃ q : ℚ, 0 ≤ q ∧ RVal.div (psum m) (fin 24) = fin q := by
  have hfil : ∀ x ∈ m.filter (fun x => ¬ x.isNan),
      x = RVal.inf ∨ ∃ q : ℚ, 0 ≤ q ∧ x = fin q := by
    intro x hx
    obtain ⟨hmem, hnn⟩ := List.mem_filter.mp hx
    obtain ⟨y, rfl⟩ := hm x hmem
    cases y with
    | nan => exact absurd hnn (by simp [RVal.max0, RVal.isNan])
    | inf => exact Or.inl rfl
    | ninf => exact Or.inr ⟨0, le_refl 0, rfl⟩
    | fin q => exact Or.inr ⟨max q 0, le_max_right q 0, rfl⟩
  unfold psum
  rcases npsum_inf_nonneg _ hfil with hinf | ⟨s, hs, hfin⟩
  · left
    rw [hinf]
    show (if (0:ℚ) ≤ 24 then RVal.inf else RVal.ninf) = RVal.inf
    rw [if_pos (by norm_num)]
  · right
    refine ⟨s / 24, by positivity, ?_⟩
    rw [hfin]
    show (if (24:ℚ) = 0 then
        (if s = 0 then RVal.nan else if 0 < s then RVal.inf else RVal.ninf)
      else fin (s / 24)) = fin (s / 24)
    rw [if_neg (by norm_num : ((24:ℚ)) ≠ 0)]

theorem calc_cdd_entries (sel : List DayRecord) (tau : RVal) :
    ∀ x ∈ calc_cdd sel tau, x = RVal.inf ∨ ∃ q : ℚ, 0 ≤ q ∧ x = fin q := by
  intro x hx
  unfold calc_cdd at hx
  obtain ⟨d, -, rfl⟩ := List.mem_map.mp hx
  exact div24_psum_max0_entry _ (by
    intro z hz
    obtain ⟨w, -, rfl⟩ := List.mem_map.mp hz
    exact ⟨_, rfl⟩)

theorem calc_hdd_entries (sel : List DayRecord) (tau : RVal) :
    ∀ x ∈ calc_hdd sel tau, x = RVal.inf ∨ ∃ q : ℚ, 0 ≤ q ∧ x = fin q := by
  intro x hx
  unfold calc_hdd at hx
  obtain ⟨d, -, rfl⟩ := List.mem_map.mp hx
  exact div24_psum_max0_entry _ (by
    intro z hz
    obtain ⟨w, -, rfl⟩ := List.mem_map.mp hz
    exact ⟨_, rfl⟩)

theorem strictSum_nonneg (l : List RVal)
    (h : ∀ x ∈ l, x = RVal.nan ∨ ∃ q : ℚ, 0 ≤ q ∧ x = fin q) :
    strictSum l = RVal.nan ∨ ∃ s : ℚ, 0 ≤ s ∧ strictSum l = fin s := by
  unfold strictSum
  by_cases ha : l.any (fun x => x.isNan)
  · rw [if_pos ha]
    exact Or.inl rfl
  · rw [if_neg ha]
    have hfin : ∀ x ∈ l, ∃ q : ℚ, 0 ≤ q ∧ x = fin q := by
      intro x hx
      rcases h x hx with rfl | hq
      · exact absurd (List.any_eq_true.mpr ⟨RVal.nan, hx, rfl⟩) ha
      · exact hq
    obtain ⟨s, hs, hsum, -⟩ := npsum_nonneg_fin l hfin
    exact Or.inr ⟨s, hs, hsum⟩

theorem selectedDays_subset (t : Thermo) (daily : List Bool) (d : DayRecord)
    (h : d ∈ selectedDays t daily) : d ∈ t.days := by
  unfold selectedDays at h
  rw [List.mem_filterMap] at h
  obtain ⟨p, hab, hsome⟩ := h
  split at hsome
  · injection hsome with hsome
    rw [← hsome]
    exact (List.of_mem_zip hab).1
  · exact absurd hsome (by simp)

/-- C7: for a non-empty core day set and physically admissible runtimes
(each hourly runtime NaN or a nonnegative finite value, per the 0-60
minutes-per-hour data model), both demand fitters compute
`cvrmse = rmse / mean(daily_runtime)`, and when that mean is zero the
quotient is NaN — not `+∞` and not an exception. -/
theorem demand_fit_cvrmse_nan_on_zero_mean_runtime :
    ∀ (sqrtQ : ℚ → ℚ) (tauOut : ℚ) (t : Thermo) (core : CoreDaySetM),
      sqrtQ 0 = 0 →
      (t.hasCooling = true → selectedDays t core.daily ≠ [] →
        (∀ d ∈ t.days, ∀ x ∈ d.coolRt,
          x = RVal.nan ∨ ∃ q : ℚ, 0 ≤ q ∧ x = fin q) →
        ∃ r : DemandResult,
          get_cooling_demand sqrtQ tauOut t core = Except.ok r ∧
          r.cvrmse = RVal.div r.rmse
            (nanmean ((selectedDays t core.daily).map (fun d => strictSum d.coolRt))) ∧
          (nanmean ((selectedDays t core.daily).map (fun d => strictSum d.coolRt))
              = fin 0 → r.cvrmse = RVal.nan)) ∧
      (t.hasHeating = true → selectedDays t core.daily ≠ [] →
        (∀ d ∈ t.days, ∀ x ∈ d.heatRt,
          x = RVal.nan ∨ ∃ q : ℚ, 0 ≤ q ∧ x = fin q) →
        ∃ r : DemandResult,
          get_heating_demand sqrtQ tauOut t core = Except.ok r ∧
          r.cvrmse = RVal.div r.rmse
            (nanmean ((selectedDays t core.daily).map (fun d => strictSum d.heatRt))) ∧
          (nanmean ((selectedDays t core.daily).map (fun d => strictSum d.heatRt))
              = fin 0 → r.cvrmse = RVal.nan)) := by
  intro sqrtQ tauOut t core hs0
  constructor
  · intro hcool hne hrt
    have hm0 : ¬ ((selectedDays t core.daily).length = 0) := by
      intro h
      exact hne (List.length_eq_zero.mp h)
    have hR : ∀ x ∈ (selectedDays t core.daily).map (fun d => strictSum d.coolRt),
        x = RVal.nan ∨ ∃ q : ℚ, 0 ≤ q ∧ x = fin q := by
      intro x hx
      obtain ⟨d, hd, rfl⟩ := List.mem_map.mp hx
      exact strictSum_nonneg _ (hrt d (selectedDays_subset t core.daily d hd))
    exact ⟨_,
      by
        unfold get_cooling_demand
        rw [if_neg (by simp [hcool])]
        simp only [leastsqModel, if_neg hm0]
        rfl,
      rfl,
      fun hmean => cvrmse_nan_core sqrtQ hs0 _ _ hR
        (calc_cdd_entries (selectedDays t core.daily) (fin tauOut)) hmean⟩
  · intro hheat hne hrt
    have hm0 : ¬ ((selectedDays t core.daily).length = 0) := by
      intro h
      exact hne (List.length_eq_zero.mp h)
    have hR : ∀ x ∈ (selectedDays t core.daily).map (fun d => strictSum d.heatRt),
        x = RVal.nan ∨ ∃ q : ℚ, 0 ≤ q ∧ x = fin q := by
      intro x hx
      obtain ⟨d, hd, rfl⟩ := List.mem_map.mp hx
      exact strictSum_nonneg _ (hrt d (selectedDays_subset t core.daily d hd))
    exact ⟨_,
      by
        unfold get_heating_demand
        rw [if_neg (by simp [hheat])]
        simp only [leastsqModel, if_neg hm0]
        rfl,
      rfl,
      fun hmean => cvrmse_nan_core sqrtQ hs0 _ _ hR
        (calc_hdd_entries (selectedDays t core.daily) (fin tauOut)) hmean⟩

/-- A one-day thermostat whose heating and cooling runtimes are all zero, so
the mean daily runtime over any non-empty core day set is zero. -/
def zeroRunThermo : Thermo :=
  ⟨true, true,
    [⟨⟨2011, 1, 1⟩, List.replicate 24 (fin 70), List.replicate 24 (fin 30),
      List.replicate 24 (fin 0), List.replicate 24 (fin 0)⟩]⟩

/-- The all-days core day set over `zeroRunThermo`. -/
def zeroRunCore : CoreDaySetM :=
  ⟨"cooling_ALL", [true], List.replicate 24 true ++ [], ⟨2011, 1, 1⟩, ⟨2011, 1, 1⟩⟩

/-- Closed witness for `demand_fit_cvrmse_nan_on_zero_mean_runtime` on
`zeroRunThermo`. -/
theorem demand_fit_cvrmse_nan_on_zero_mean_runtime_witness :
    (∃ r : DemandResult,
      get_cooling_demand id 0 zeroRunThermo zeroRunCore = Except.ok r ∧
      r.cvrmse = RVal.div r.rmse
        (nanmean ((selectedDays zeroRunThermo zeroRunCore.daily).map
          (fun d => strictSum d.coolRt))) ∧
      (nanmean ((selectedDays zeroRunThermo zeroRunCore.daily).map
          (fun d => strictSum d.coolRt)) = fin 0 → r.cvrmse = RVal.nan)) ∧
    (∃ r : DemandResult,
      get_heating_demand id 0 zeroRunThermo zeroRunCore = Except.ok r ∧
      r.cvrmse = RVal.div r.rmse
        (nanmean ((selectedDays zeroRunThermo zeroRunCore.daily).map
          (fun d => strictSum d.heatRt))) ∧
      (nanmean ((selectedDays zeroRunThermo zeroRunCore.daily).map
          (fun d => strictSum d.heatRt)) = fin 0 → r.cvrmse = RVal.nan)) :=
  ⟨(demand_fit_cvrmse_nan_on_zero_mean_runtime id 0 zeroRunThermo zeroRunCore rfl).1
      rfl (by with_unfolding_all decide)
      (by
        intro d hd x hx
        have hd' : d = ⟨⟨2011, 1, 1⟩, List.replicate 24 (fin 70),
            List.replicate 24 (fin 30), List.replicate 24 (fin 0),
            List.replicate 24 (fin 0)⟩ := by
          simpa [zeroRunThermo] using hd
        subst hd'
        exact Or.inr ⟨0, le_refl 0, List.eq_of_mem_replicate hx⟩),
   (demand_fit_cvrmse_nan_on_zero_mean_runtime id 0 zeroRunThermo zeroRunCore rfl).2
      rfl (by with_unfolding_all decide)
      (by
        intro d hd x hx
        have hd' : d = ⟨⟨2011, 1, 1⟩, List.replicate 24 (fin 70),
            List.replicate 24 (fin 30), List.replicate 24 (fin 0),
            List.replicate 24 (fin 0)⟩ := by
          simpa [zeroRunThermo] using hd
        subst hd'
        exact Or.inr ⟨0, le_refl 0, List.eq_of_mem_replicate hx⟩)⟩

/-! ## Resistance-heat-utilization bins
(`get_resistance_heat_utilization_bins`, lines 799-879)

`pd.cut(temperature, bins)` assigns each row to a right-closed interval
`(edges[i], edges[i+1]]` (NaN/out-of-range rows to no bin), and the
subsequent `groupby("bins").sum()` over the categorical produces one row per
bin, in ascending bin order, with NaN-skipping sums (empty bins sum to 0).
`rhu = (aux + emg) / (heat + emg)`; when `min_runtime_minutes` is truthy
(RHU2), bins whose total runtime is below it get NaN; finally any bin whose
summed aux runtime exceeds its summed heat runtime is flagged
`data_is_nonsense`, its `rhu` is forced to NaN, and a warning is emitted for
it (`warnings.warn`, not an exception). -/

structure RuntimeTempRow where
  temperature : RVal
  heat_runtime : RVal
  aux_runtime : RVal
  emg_runtime : RVal
  total_minutes : RVal
  deriving DecidableEq, Repr

structure RhuBinRow where
  heat_runtime : RVal
  aux_runtime : RVal
  emg_runtime : RVal
  total_minutes : RVal
  rhu : RVal
  total_runtime : RVal
  data_is_nonsense : Bool
  deriving DecidableEq, Repr

/-- `pd.cut` bin assignment: the index `i` with
`edges[i] < q ≤ edges[i+1]`, none for NaN/±∞/out-of-range values. -/
def binIndex (edges : List ℚ) (x : RVal) : Option ℕ :=
  match x with
  | fin q => (List.range (edges.length - 1)).find? (fun i =>
      decide (edges.getD i 0 < q) && decide (q ≤ edges.getD (i + 1) 0))
  | _ => none

/-- One output row of `get_resistance_heat_utilization_bins` for bin `i`:
the grouped NaN-skipping sums, the rhu ratio, the RHU2 minimum-runtime
filter (skipped for `None` or `0`, Python truthiness), and the nonsense
flag forcing rhu to NaN. -/
def rhuBinRow (rows : List RuntimeTempRow) (edges : List ℚ) (minrt : Option ℚ)
    (i : ℕ) : RhuBinRow :=
  let grp := rows.filter (fun r => binIndex edges r.temperature = some i)
  let heat := psum (grp.map (fun r => r.heat_runtime))
  let auxR := psum (grp.map (fun r => r.aux_runtime))
  let emg := psum (grp.map (fun r => r.emg_runtime))
  let totmin := psum (grp.map (fun r => r.total_minutes))
  let rhu0 := RVal.div (RVal.add auxR emg) (RVal.add heat emg)
  let totalRun := RVal.add (RVal.add heat auxR) emg
  let cut := (match minrt with
    | none => false
    | some m => decide (m ≠ 0)) && RVal.lt totalRun (fin (minrt.getD 0))
  let rhu1 := if cut then RVal.nan else rhu0
  let total1 := if cut then RVal.nan else totalRun
  let nonsense := RVal.lt heat auxR
  ⟨heat, auxR, emg, totmin, if nonsense then RVal.nan else rhu1, total1, nonsense⟩

/-- `core.py::Thermostat.get_resistance_heat_utilization_bins`: the binned
RHU table (first component) and the indices of the bins for which a
"nonsense data" warning is emitted (second component). -/
def get_resistance_heat_utilization_bins (rows : List RuntimeTempRow)
    (edges : List ℚ) (minrt : Option ℚ) : List RhuBinRow × List ℕ :=
  ((List.range (edges.length - 1)).map (rhuBinRow rows edges minrt),
   ((List.range (edges.length - 1)).zip
       ((List.range (edges.length - 1)).map (rhuBinRow rows edges minrt))).filterMap
     (fun p => if p.2.data_is_nonsense then some p.1 else none))

theorem rhuBinRow_nonsense_nan (rows : List RuntimeTempRow) (edges : List ℚ)
    (minrt : Option ℚ) (i : ℕ)
    (h : (rhuBinRow rows edges minrt i).data_is_nonsense = true) :
    (rhuBinRow rows edges minrt i).rhu = RVal.nan := by
  simp only [rhuBinRow] at h ⊢
  rw [if_pos h]

/-- C8: in every bin whose summed auxiliary runtime strictly exceeds its
summed heat runtime, the rhu value is NaN and the bin is in the emitted
warning list; the function is total (no exception). -/
theorem rhu_aux_exceeds_heat_nan_and_warn :
    ∀ (rows : List RuntimeTempRow) (edges : List ℚ) (minrt : Option ℚ) (i : ℕ)
      (hi : i < (get_resistance_heat_utilization_bins rows edges minrt).1.length),
      RVal.lt ((get_resistance_heat_utilization_bins rows edges minrt).1[i]).heat_runtime
        ((get_resistance_heat_utilization_bins rows edges minrt).1[i]).aux_runtime
        = true →
      ((get_resistance_heat_utilization_bins rows edges minrt).1[i]).rhu = RVal.nan ∧
      i ∈ (get_resistance_heat_utilization_bins rows edges minrt).2 := by
  intro rows edges minrt i hi h
  have hlen : i < edges.length - 1 := by
    simpa [get_resistance_heat_utilization_bins] using hi
  have hget : (get_resistance_heat_utilization_bins rows edges minrt).1[i]
      = rhuBinRow rows edges minrt i := by
    have heq : (get_resistance_heat_utilization_bins rows edges minrt).1
        = (List.range (edges.length - 1)).map (rhuBinRow rows edges minrt) := rfl
    rw [List.getElem_of_eq heq hi, List.getElem_map, List.getElem_range]
  rw [hget] at h
  have hnon : (rhuBinRow rows edges minrt i).data_is_nonsense = true := h
  constructor
  · rw [hget]
    exact rhuBinRow_nonsense_nan rows edges minrt i hnon
  · apply List.mem_filterMap.mpr
    refine ⟨(i, rhuBinRow rows edges minrt i), ?_, by rw [if_pos hnon]⟩
    apply List.mem_iff_getElem.mpr
    have hzlen : i < (((List.range (edges.length - 1)).zip
        ((List.range (edges.length - 1)).map (rhuBinRow rows edges minrt)))).length := by
      rw [List.length_zip, List.length_range, List.length_map, List.length_range]
      omega
    refine ⟨i, hzlen, ?_⟩
    rw [List.getElem_zip, List.getElem_range, List.getElem_map, List.getElem_range]

/-- Closed witness for `rhu_aux_exceeds_heat_nan_and_warn`: a single bin
(0, 60] with summed aux runtime 50 and heat runtime 30. -/
theorem rhu_aux_exceeds_heat_nan_and_warn_witness :
    (((get_resistance_heat_utilization_bins
        [⟨fin 10, fin 30, fin 50, fin 0, fin 1440⟩] [0, 60] none).1.get
          ⟨0, by with_unfolding_all decide⟩).rhu = RVal.nan) ∧
    0 ∈ (get_resistance_heat_utilization_bins
        [⟨fin 10, fin 30, fin 50, fin 0, fin 1440⟩] [0, 60] none).2 :=
  rhu_aux_exceeds_heat_nan_and_warn
    [⟨fin 10, fin 30, fin 50, fin 0, fin 1440⟩] [0, 60] none 0
    (by with_unfolding_all decide) (by with_unfolding_all decide)

/-! ## Sigmoid RHU fit (`fit_sigmoid_model`, lines 1634-1695)

The two-parameter `scipy.optimize.least_squares` solve is abstracted by an
external outcome `solver` (its exception arm models any raised exception);
`erf((t - mu) / (sigma * sqrt 2))` is abstracted by the black-box `erfQ`.
A dataframe is modelled as its `rhu`/`n_points` columns (indexed by bin
midpoint) plus the optional `estimated_rhu` column that the function may
add — the frame-effect under scrutiny. -/

structure RhuFitRow where
  binMid : ℚ
  rhu : RVal
  n_points : RVal
  deriving DecidableEq, Repr

structure RhuFrame where
  rows : List RhuFitRow
  estimated_rhu : Option (List RVal)
  deriving DecidableEq, Repr

/-- `core.py::Thermostat.fit_sigmoid_model`.  On solver success the
caller-supplied frame comes back with an `estimated_rhu` column added
(lines 1681-1687); on any solver exception the `except` arm (lines
1689-1693) returns four `None`s and the frame untouched. -/
def fit_sigmoid_model (erfQ : ℚ → ℚ → ℚ → ℚ) (sqrtQ : ℚ → ℚ)
    (solver : Except Unit (ℚ × ℚ)) (runtime_rhu : RhuFrame)
    (n_points_threshold : ℚ) :
    (Option ℚ × Option ℚ × Option RVal × Option RVal) × RhuFrame :=
  match solver with
  | Except.error _ => ((none, none, none, none), runtime_rhu)
  | Except.ok (mu, sigma) =>
      let rhu := (runtime_rhu.rows.filter
          (fun r => ¬ r.rhu.isNan && ¬ r.n_points.isNan)).filter
        (fun r => RVal.lt (fin n_points_threshold) r.n_points)
      let errors := rhu.map (fun r =>
        RVal.mul (RVal.sub (fin (2⁻¹ * (1 - erfQ mu sigma r.binMid))) r.rhu)
          (RVal.sub (fin (2⁻¹ * (1 - erfQ mu sigma r.binMid))) r.rhu))
      let sigmoid_model_error := RVal.rsqrt sqrtQ
        (RVal.div (npsum errors) (npsum (rhu.map (fun r => r.n_points))))
      let est := runtime_rhu.rows.map
        (fun r => fin (2⁻¹ * (1 - erfQ mu sigma r.binMid)))
      let sigmoid_integral := npsum est
      ((some mu, some sigma, some sigmoid_model_error, some sigmoid_integral),
       { runtime_rhu with estimated_rhu := some est })

/-- C10: `fit_sigmoid_model` mutates its caller-supplied dataframe: on
solver success the frame comes back with an `estimated_rhu` column added
(rows untouched) and all four results populated; on a solver exception the
frame is returned exactly unchanged and all four results are `None`. -/
theorem fit_sigmoid_model_frame_effect :
    ∀ (erfQ : ℚ → ℚ → ℚ → ℚ) (sqrtQ : ℚ → ℚ) (solver : Except Unit (ℚ × ℚ))
      (runtime_rhu : RhuFrame) (thr : ℚ),
      (solver = Except.error () →
        fit_sigmoid_model erfQ sqrtQ solver runtime_rhu thr
          = ((none, none, none, none), runtime_rhu)) ∧
      (∀ mu sigma, solver = Except.ok (mu, sigma) →
        ((fit_sigmoid_model erfQ sqrtQ solver runtime_rhu thr).2.estimated_rhu).isSome
            = true ∧
        (fit_sigmoid_model erfQ sqrtQ solver runtime_rhu thr).2.rows
            = runtime_rhu.rows ∧
        (fit_sigmoid_model erfQ sqrtQ solver runtime_rhu thr).1.1 = some mu ∧
        (fit_sigmoid_model erfQ sqrtQ solver runtime_rhu thr).1.2.1 = some sigma ∧
        ((fit_sigmoid_model erfQ sqrtQ solver runtime_rhu thr).1.2.2.1).isSome
            = true ∧
        ((fit_sigmoid_model erfQ sqrtQ solver runtime_rhu thr).1.2.2.2).isSome
            = true) := by
  intro erfQ sqrtQ solver runtime_rhu thr
  constructor
  · intro hsolver
    rw [hsolver]
    rfl
  · intro mu sigma hsolver
    rw [hsolver]
    exact ⟨rfl, rfl, rfl, rfl, rfl, rfl⟩

/-- Closed witness for `fit_sigmoid_model_frame_effect`, exercising both the
success and the exception arm on a one-bin frame. -/
theorem fit_sigmoid_model_frame_effect_witness :
    (fit_sigmoid_model (fun _ _ _ => 0) id (Except.error ())
        ⟨[⟨30, fin 1, fin 3⟩], none⟩ 2
      = ((none, none, none, none), ⟨[⟨30, fin 1, fin 3⟩], none⟩)) ∧
    ((fit_sigmoid_model (fun _ _ _ => 0) id (Except.ok (30, 5))
        ⟨[⟨30, fin 1, fin 3⟩], none⟩ 2).2.estimated_rhu.isSome = true ∧
     (fit_sigmoid_model (fun _ _ _ => 0) id (Except.ok (30, 5))
        ⟨[⟨30, fin 1, fin 3⟩], none⟩ 2).2.rows = [⟨30, fin 1, fin 3⟩]) :=
  ⟨(fit_sigmoid_model_frame_effect (fun _ _ _ => 0) id (Except.error ())
      ⟨[⟨30, fin 1, fin 3⟩], none⟩ 2).1 rfl,
   ((fit_sigmoid_model_frame_effect (fun _ _ _ => 0) id (Except.ok (30, 5))
      ⟨[⟨30, fin 1, fin 3⟩], none⟩ 2).2 30 5 rfl).1,
   ((fit_sigmoid_model_frame_effect (fun _ _ _ => 0) id (Except.ok (30, 5))
      ⟨[⟨30, fin 1, fin 3⟩], none⟩ 2).2 30 5 rfl).2.1⟩
